import Mathlib

/-!
Verification development for the `coinbase-async` ingestion pipeline.

The Python source is shallowly embedded: JSON/dict messages become
association lists of `Value`s, `decimal.Decimal` becomes exact `Rat`,
raised exceptions become `Except` errors (carrying the handler state at
the moment of the raise, matching Python's persistent `self` mutations),
and external collaborators (the websocket, the REST order-book endpoint,
the BigQuery HTTP API, the OAuth token endpoint) become explicit input
parameters.
-/

namespace Coinbase

/-- An exact `decimal.Decimal` value, `mant / 10^scale` — the same
(coefficient, exponent) representation CPython's `decimal` uses, with no
binary floating point anywhere. -/
structure Dec where
  mant : Int
  scale : Nat
  deriving DecidableEq

/-- The rational value of a decimal. -/
def Dec.toRat (d : Dec) : Rat := (d.mant : Rat) / (10 : Rat) ^ d.scale

mutual
/-- A Python value as it occurs in websocket messages: JSON scalars plus the
normalized forms produced by `_validate_message` (parsed datetimes, exact
`decimal.Decimal` values, signed-int sides). -/
inductive Value where
  | vStr : String → Value
  | vInt : Int → Value
  | vDec : Dec → Value
  | vTime : String → Value
  | vNone : Value
  | vList : VList → Value
/-- A Python list of values (spelled out so equality is derivable). -/
inductive VList where
  | nil : VList
  | cons : Value → VList → VList
end

deriving instance DecidableEq for Value, VList

/-- View a Python list as a Lean list. -/
def VList.toList : VList → List Value
  | .nil => []
  | .cons v l => v :: toList l

/-- Build a Python list from a Lean list. -/
def VList.ofList : List Value → VList
  | [] => .nil
  | v :: l => .cons v (ofList l)

theorem VList.toList_ofList (l : List Value) : (VList.ofList l).toList = l := by
  induction l with
  | nil => rfl
  | cons v l ih => simp [VList.ofList, VList.toList, ih]

/-- A Python dict, as an insertion-ordered association list. -/
abbrev Msg := List (String × Value)

/-- Python exceptions raised by the embedded code. -/
inductive PyErr where
  | keyError : String → PyErr
  | typeError : PyErr
  | indexError : PyErr
  | attributeError : PyErr
  | invalidOperation : PyErr
  | valueError : PyErr
  | messageHandlerError : String → PyErr
  | notImplementedError : PyErr
  | asyncAuthGoogleCloudError : PyErr
  | asyncBigQueryError : PyErr
  deriving DecidableEq

/-- `d.get(k)` without default: first binding for `k`, if any. -/
def dictGet? {α : Type} (m : List (String × α)) (k : String) : Option α :=
  match m with
  | [] => none
  | (k', v) :: rest => if k' = k then some v else dictGet? rest k

/-- `d.get(k)` as a value: `None` when the key is absent. -/
def pyGet (m : Msg) (k : String) : Value :=
  (dictGet? m k).getD .vNone

/-- `d[k]`: raises `KeyError` when the key is absent. -/
def dictGetItem (m : Msg) (k : String) : Except PyErr Value :=
  match dictGet? m k with
  | some v => .ok v
  | none => .error (.keyError k)

/-- `d[k] = v`: replaces the binding in place, or appends a new one
(Python dicts keep insertion order). -/
def dictSet {α : Type} (m : List (String × α)) (k : String) (v : α) :
    List (String × α) :=
  if (dictGet? m k).isSome then
    m.map (fun p => if p.1 = k then (k, v) else p)
  else
    m ++ [(k, v)]

/-- Python truthiness for the values above. -/
def truthy : Value → Bool
  | .vStr s => !s.isEmpty
  | .vInt n => n != 0
  | .vDec q => q.mant != 0
  | .vTime _ => true
  | .vNone => false
  | .vList l => l != .nil

/-- Digits of a numeral, most significant first, as a natural number;
`none` when empty or a non-digit occurs. -/
def digitsToNat? (cs : List Char) : Option Nat :=
  match cs with
  | [] => none
  | _ =>
    if cs.all Char.isDigit then
      some (cs.foldl (fun acc c => 10 * acc + (c.toNat - '0'.toNat)) 0)
    else none

/-- `decimal.Decimal(s)` for the plain decimal strings the exchange sends:
optional sign, an integer part and/or a fractional part.  `none` models
`decimal.InvalidOperation`. -/
def parseDecimal? (s : String) : Option Dec :=
  let (sign, body) : Int × List Char :=
    match s.data with
    | '-' :: cs => (-1, cs)
    | '+' :: cs => (1, cs)
    | cs => (1, cs)
  match body.splitOn '.' with
  | [ip] =>
    match digitsToNat? ip with
    | some n => some ⟨sign * n, 0⟩
    | none => none
  | [ip, fp] =>
    if ip.isEmpty && fp.isEmpty then none
    else if (ip.all Char.isDigit) && (fp.all Char.isDigit) then
      let ipn : Nat := (ip.foldl (fun acc c => 10 * acc + (c.toNat - '0'.toNat)) 0)
      let fpn : Nat := (fp.foldl (fun acc c => 10 * acc + (c.toNat - '0'.toNat)) 0)
      some ⟨sign * (ipn * 10 ^ fp.length + fpn), fp.length⟩
    else none
  | _ => none

/-- `decimal.Decimal(v)`: parses strings, passes `Decimal`s through, widens
ints; anything else raises (`TypeError`, and `InvalidOperation` for an
unparsable string), as in CPython. -/
def pyDecimal : Value → Except PyErr Dec
  | .vStr s =>
    match parseDecimal? s with
    | some q => .ok q
    | none => .error .invalidOperation
  | .vDec q => .ok q
  | .vInt n => .ok ⟨n, 0⟩
  | _ => .error .typeError

/-- `int(s)` on a numeral string: optional sign then digits. -/
def parseInt? (s : String) : Option Int :=
  match s.data with
  | '-' :: cs => (digitsToNat? cs).map (fun n => -(n : Int))
  | '+' :: cs => (digitsToNat? cs).map (fun n => (n : Int))
  | cs => (digitsToNat? cs).map (fun n => (n : Int))

/-- `int(v)`: ints pass through, numeral strings parse, `Decimal` truncates
toward zero; anything else raises. -/
def pyInt : Value → Except PyErr Int
  | .vInt n => .ok n
  | .vStr s =>
    match parseInt? s with
    | some n => .ok n
    | none => .error .valueError
  | .vDec q => .ok (q.mant.tdiv ((10 : Int) ^ q.scale))
  | _ => .error .typeError

/-- `ciso8601.parse_datetime` / `dateutil.parser.parse`: turns a string into
a datetime (modelled as the string it was parsed from); any non-string input
— in particular an already-parsed datetime — raises `TypeError`. -/
def parse_datetime : Value → Except PyErr Value
  | .vStr s => .ok (.vTime s)
  | _ => .error .typeError

/-- `s.replace("-", "_")` — for a single-character pattern this is a
per-character substitution. -/
def replaceDash (s : String) : String :=
  ⟨s.data.map (fun c => if c = '-' then '_' else c)⟩

/-! ## `MessageHandler._validate_message` (messages.py 83-155)

The source is one function made of independent field stanzas; each stanza is
embedded as one step, and `_validate_message` chains them in source order. -/

/-- `message['type'] = message.get('type', "unknown")` (line 97). -/
def _vm_type (m : Msg) : Msg :=
  dictSet m "type" ((dictGet? m "type").getD (.vStr "unknown"))

/-- Lines 98-109: parse `time` when truthy; otherwise synthesize the arrival
time (`datetime.utcnow()`, the `now` argument) for `snapshot` messages and
store `None` for everything else. -/
def _vm_time (now : String) (m : Msg) : Except PyErr Msg :=
  if truthy (pyGet m "time") then do
    let t ← parse_datetime (pyGet m "time")
    pure (dictSet m "time" t)
  else if pyGet m "type" = .vStr "snapshot" then
    pure (dictSet m "time" (.vTime now))
  else
    pure (dictSet m "time" .vNone)

/-- Lines 111-112: canonicalize `product_id` separators (`.replace` on a
non-string raises `AttributeError`). -/
def _vm_product_id (m : Msg) : Except PyErr Msg :=
  if truthy (pyGet m "product_id") then
    match pyGet m "product_id" with
    | .vStr s => pure (dictSet m "product_id" (.vStr (replaceDash s)))
    | _ => .error .attributeError
  else pure m

/-- The two sequential textual-side rewrites of messages.py 116-120 (and
148-153): `buy` to 1, then `sell` to −1, anything else untouched. -/
def transformSide (a : Value) : Value :=
  let a := if a = .vStr "buy" then .vInt 1 else a
  if a = .vStr "sell" then .vInt (-1) else a

/-- Lines 114-128: normalize the first `changes` triple — textual side to
±1, then the two numeric components to `Decimal` — and signal the early
`return`.  Non-list shapes cannot support the item assignment and raise. -/
def _vm_changes (m : Msg) : Except PyErr (Msg × Bool) :=
  if truthy (pyGet m "changes") then
    match pyGet m "changes" with
    | .vList (.cons (.vList c0) rest) =>
        match c0.toList.get? 0 with
        | none => .error .indexError
        | some a =>
          let a := transformSide a
          match c0.toList.get? 1 with
          | none => .error .indexError
          | some b =>
            match pyDecimal b with
            | .error e => .error e
            | .ok bq =>
              match c0.toList.get? 2 with
              | none => .error .indexError
              | some c =>
                match pyDecimal c with
                | .error e => .error e
                | .ok cq =>
                  let l0 := ((c0.toList.set 0 a).set 1 (.vDec bq)).set 2 (.vDec cq)
                  .ok (dictSet m "changes"
                    (.vList (.cons (.vList (VList.ofList l0)) rest)), true)
    | _ => .error .typeError
  else
    .ok (m, false)

/-- Lines 130-140: convert one numeric field to `Decimal` when truthy. -/
def _vm_decimal_field (k : String) (m : Msg) : Except PyErr Msg :=
  if truthy (pyGet m k) then do
    let q ← pyDecimal (pyGet m k)
    pure (dictSet m k (.vDec q))
  else pure m

/-- Lines 142-146: convert `sequence` / `trade_id` to `int` when truthy. -/
def _vm_int_field (k : String) (m : Msg) : Except PyErr Msg :=
  if truthy (pyGet m k) then do
    let n ← pyInt (pyGet m k)
    pure (dictSet m k (.vInt n))
  else pure m

/-- Lines 148-153: map a textual `side` to ±1 (assignments happen only on a
match). -/
def _vm_side (m : Msg) : Msg :=
  if truthy (pyGet m "side") then
    let m := if pyGet m "side" = .vStr "buy" then dictSet m "side" (.vInt 1) else m
    let m := if pyGet m "side" = .vStr "sell" then dictSet m "side" (.vInt (-1)) else m
    m
  else m

/-- `MessageHandler._validate_message` (messages.py 83-155), the stanzas in
source order with the early `return` after `changes` (exceptions propagate
through each stanza). -/
def _validate_message (now : String) (message : Msg) : Except PyErr Msg :=
  match _vm_time now (_vm_type message) with
  | .error e => .error e
  | .ok message =>
  match _vm_product_id message with
  | .error e => .error e
  | .ok message =>
  match _vm_changes message with
  | .error e => .error e
  | .ok (message, changesExit) =>
  if changesExit then .ok message
  else
  match _vm_decimal_field "price" message with
  | .error e => .error e
  | .ok message =>
  match _vm_decimal_field "funds" message with
  | .error e => .error e
  | .ok message =>
  match _vm_decimal_field "size" message with
  | .error e => .error e
  | .ok message =>
  match _vm_decimal_field "remaining_size" message with
  | .error e => .error e
  | .ok message =>
  match _vm_int_field "sequence" message with
  | .error e => .error e
  | .ok message =>
  match _vm_int_field "trade_id" message with
  | .error e => .error e
  | .ok message => .ok (_vm_side message)

/-! ## Handler state (messages.py 42-81, websocket.py 67-68, create.py 101-103) -/

/-- The supported trade/quote message types (`WebSocket.MESSAGE_TYPES`). -/
def MESSAGE_TYPES : List String :=
  ["received", "open", "closed", "done", "match", "change", "activate"]

/-- 1M events must pass before snapshot (messages.py 39). -/
def _ORDERBOOK_SNAPSHOT_ON : Int := 1000000

/-- Recommended by Google (messages.py 40). -/
def _INSERT_STREAMING_BATCH_SIZE : Nat := 500

/-- The three destination tables (`CreateBigQuery.TABLE_*`). -/
inductive TableRef where
  | trades
  | quotes
  | orderbook
  deriving DecidableEq

/-- One entry of a message-cache list: a message dict, or Python `None`. -/
abbrev CacheEntry := Option Msg

/-- The cache lists `self.message_cache[product_id][table]`. -/
structure TableCaches where
  trades : List CacheEntry
  quotes : List CacheEntry
  orderbook : List CacheEntry
  deriving DecidableEq

def TableCaches.get (tc : TableCaches) : TableRef → List CacheEntry
  | .trades => tc.trades
  | .quotes => tc.quotes
  | .orderbook => tc.orderbook

def TableCaches.push (tc : TableCaches) : TableRef → CacheEntry → TableCaches
  | .trades, e => { tc with trades := tc.trades ++ [e] }
  | .quotes, e => { tc with quotes := tc.quotes ++ [e] }
  | .orderbook, e => { tc with orderbook := tc.orderbook ++ [e] }

def TableCaches.clearTable (tc : TableCaches) : TableRef → TableCaches
  | .trades => { tc with trades := [] }
  | .quotes => { tc with quotes := [] }
  | .orderbook => { tc with orderbook := [] }

/-- The mutable state of a `MessageHandler`: per-instrument sequence
counters, the truthiness of `self.datasets`, and the per-instrument message
caches. -/
structure HandlerState where
  sequences : List (String × Int)
  datasets : Bool
  message_cache : List (String × TableCaches)
  deriving DecidableEq

/-- `MessageHandler.__init__` + `_init_message_cache` (messages.py 56-81):
counters at 0 and empty caches, both keyed by the underscore form of the
product id (`CreateBigQuery.__init__` rewrites `self.product_ids` before
`_init_message_cache` runs).  `datasets` is falsy iff no service file was
given. -/
def initState (product_ids : List String) (datasets : Bool) : HandlerState :=
  { sequences := product_ids.map (fun p => (replaceDash p, 0))
  , datasets := datasets
  , message_cache :=
      if datasets then product_ids.map (fun p => (replaceDash p, ⟨[], [], []⟩))
      else [] }

/-- Handler computations: Python exceptions propagate, but mutations to
`self` made before the raise persist, so errors carry the state at the
moment of the raise. -/
abbrev HResult (α : Type) := Except (HandlerState × PyErr) α

/-- The state in which a handler step left `self`, whether it returned or
raised. -/
def resultState : HResult (HandlerState × Msg) → HandlerState
  | .ok (st, _) => st
  | .error (st, _) => st

/-- `self.message_cache[message['product_id']][table].append(entry)`. -/
def appendCache (st : HandlerState) (message : Msg) (tbl : TableRef)
    (entry : CacheEntry) : HResult HandlerState := do
  let pid ← match dictGet? message "product_id" with
    | some (.vStr pid) => pure pid
    | _ => Except.error (st, .keyError "product_id")
  match dictGet? st.message_cache pid with
  | some tc =>
      pure { st with message_cache := dictSet st.message_cache pid (tc.push tbl entry) }
  | none => Except.error (st, .keyError pid)

/-- `MessageHandler._process_message` (messages.py 289-372).  `now` is the
client clock, `book` the response of the REST `get_product_order_book`
call, `raw` the decoded frame from `_recieve_message`.  Log text is not
modelled, but the `round(Decimal(message.get('price', 0)), 3)` of the match
log line is kept for its error effect.  In the 1M-multiple branch,
`message_orderbook.update(type='snapshot')` evaluates to Python `None`, and
that `None` is what gets appended to the orderbook cache. -/
def _process_message (st : HandlerState) (now : String) (book : Msg)
    (raw : Msg) : HResult (HandlerState × Msg) := do
  let message ← match _validate_message now raw with
    | .ok m => pure m
    | .error e => Except.error (st, e)
  if (dictGet? message "type").getD .vNone = .vNone then
    Except.error (st, .messageHandlerError "Unknown message recieved")
  else if pyGet message "type" = .vStr "error" then
    Except.error (st, .messageHandlerError "error message")
  else if pyGet message "type" = .vStr "subscriptions" then
    pure (st, message)
  else if pyGet message "type" = .vStr "snapshot" then do
    let st ← if st.datasets then appendCache st message .orderbook (some message) else pure st
    pure (st, message)
  else if pyGet message "type" = .vStr "l2update" then do
    let st ← if st.datasets then appendCache st message .orderbook (some message) else pure st
    pure (st, message)
  else do
    let seqv ← match dictGetItem message "sequence" with
      | .ok v => pure v
      | .error e => Except.error (st, e)
    let seqn ← match seqv with
      | .vInt n => pure n
      | _ => Except.error (st, .typeError)
    let st ←
      if seqn % _ORDERBOOK_SNAPSHOT_ON = 0 then do
        let _ ← match dictGetItem message "product_id" with
          | .ok v => pure v
          | .error e => Except.error (st, e)
        let _ := book
        if st.datasets then appendCache st message .orderbook none else pure st
      else pure st
    if pyGet message "type" ∈ MESSAGE_TYPES.map Value.vStr then do
      let pid ← match dictGet? message "product_id" with
        | some (.vStr pid) => pure pid
        | _ => Except.error (st, .keyError "product_id")
      let current_seq ← match dictGet? st.sequences pid with
        | some c => pure c
        | none => Except.error (st, .keyError pid)
      if current_seq ≠ 0 ∧ seqn ≠ current_seq then
        Except.error (st, .messageHandlerError "is out-of-sequence")
      else do
        let st := { st with sequences := dictSet st.sequences pid (seqn + 1) }
        if pyGet message "type" = .vStr "match" then do
          let st ← if st.datasets then appendCache st message .trades (some message) else pure st
          let _ ← match pyDecimal ((dictGet? message "price").getD (.vInt 0)) with
            | .ok q => pure q
            | .error e => Except.error (st, e)
          pure (st, message)
        else do
          let st ← if st.datasets then appendCache st message .quotes (some message) else pure st
          pure (st, message)
    else
      Except.error (st, .messageHandlerError "Unknown message recieved")

/-! ## `MessageHandler.record_messages` and the public `process_message`
(messages.py 157-287) -/

/-- `[m for m in messages if m['type'] == ty]`: an entry that is Python
`None` fails the subscript with `TypeError`; a dict without `type` raises
`KeyError`. -/
def filterByType (ty : String) : List CacheEntry → Except PyErr (List Msg)
  | [] => .ok []
  | none :: _ => .error .typeError
  | some m :: rest => do
      let t ← dictGetItem m "type"
      let tail ← filterByType ty rest
      pure (if t = .vStr ty then m :: tail else tail)

/-- `convert_to_row` (messages.py 176-178): a `(time, side, level, depth)`
row with the numeric pair passed through `Decimal`. -/
def convert_to_row (record : List Value) (side : Value) (timestamp : Value) :
    Except PyErr Msg := do
  let r0 ← match record.get? 0 with
    | some v => pure v
    | none => Except.error .indexError
  let level ← pyDecimal r0
  let r1 ← match record.get? 1 with
    | some v => pure v
    | none => Except.error .indexError
  let depth ← pyDecimal r1
  pure [("time", timestamp), ("side", side),
        ("level", .vDec level), ("depth", .vDec depth)]

/-- Recursion core of `chunker`; the fuel argument (instantiated with
`rows.length`, which always suffices since every step drops `n ≥ 1`
elements) only makes the recursion structural. -/
def chunkerGo (n : Nat) : Nat → List Msg → List (List CacheEntry)
  | _, [] => []
  | 0, _ :: _ => []
  | fuel + 1, r :: rest =>
      if n = 0 then []
      else (((r :: rest).take n).map some
              ++ List.replicate (n - (r :: rest).length) none)
        :: chunkerGo n fuel ((r :: rest).drop n)

/-- `chunker` (messages.py 172-174): `zip_longest` over `n` copies of one
iterator yields groups of exactly `n`, the last padded with `None`; with
`n = 0` it yields nothing, and an empty iterable yields no group. -/
def chunker (rows : List Msg) (n : Nat) : List (List CacheEntry) :=
  chunkerGo n rows.length rows

/-- The `[convert_to_row(record=record, side=side, timestamp=timestamp) for
record in ...]` comprehensions over a snapshot's `asks`/`bids`
(messages.py 195-199); a non-list record cannot be indexed. -/
def rowsOf (side : Value) (timestamp : Value) :
    List Value → Except PyErr (List Msg)
  | [] => .ok []
  | record :: rest => do
      let row ← match record with
        | .vList rl => convert_to_row rl.toList side timestamp
        | _ => Except.error .typeError
      let tail ← rowsOf side timestamp rest
      pure (row :: tail)

/-- The `messages_as_rows` comprehension over `l2update` messages
(messages.py 217-220): `record = changes[0][1:]`, `side = changes[0][0]`. -/
def l2Rows : List Msg → Except PyErr (List Msg)
  | [] => .ok []
  | message :: rest => do
      let ch ← dictGetItem message "changes"
      let row ← match ch with
        | .vList (.cons (.vList l0) _) => do
            let sidev ← match l0.toList.get? 0 with
              | some v => pure v
              | none => Except.error .indexError
            let t ← dictGetItem message "time"
            convert_to_row (l0.toList.drop 1) sidev t
        | .vList .nil => Except.error .indexError
        | _ => Except.error .typeError
      let tail ← l2Rows rest
      pure (row :: tail)

/-- `MessageHandler.record_messages` (messages.py 157-225).  The BigQuery
table handle and the remote transport are external collaborators; the
remote is modelled as accepting every row (empty `insertErrors`), so the
result is the list of `insert_rows` calls performed, each the list of row
payloads of one call.  In the snapshot branch the `while True` loop filters
`None` fills out of each chunk before inserting it. -/
def record_messages (table_ref : TableRef) (messages : List CacheEntry) :
    Except PyErr (List (List CacheEntry)) := do
  if table_ref = .trades ∨ table_ref = .quotes then
    pure [messages]
  else do
    let snapshots ← filterByType "snapshot" messages
    if snapshots.length > 1 then
      Except.error (.messageHandlerError
        "Message cache overflow; check the snapshot frequency ornetwork connectivity")
    else
      match snapshots with
      | s0 :: _ => do
        let timestamp ← dictGetItem s0 "time"
        let asksv ← dictGetItem s0 "asks"
        let asks ← match asksv with
          | .vList l => rowsOf (.vInt 1) timestamp l.toList
          | _ => Except.error .typeError
        let bidsv ← dictGetItem s0 "bids"
        let bids ← match bidsv with
          | .vList l => rowsOf (.vInt (-1)) timestamp l.toList
          | _ => Except.error .typeError
        pure ((chunker (asks ++ bids) _INSERT_STREAMING_BATCH_SIZE).map
          (fun c => c.filter Option.isSome))
      | [] => do
        let rows ← l2Rows (← filterByType "l2update" messages)
        pure [rows.map some]

/-- `MessageHandler._retrieve_message_cache` (messages.py 227-257). -/
def _retrieve_message_cache (st : HandlerState) (message : Msg) :
    Except PyErr (List CacheEntry × Option TableRef × Option String) := do
  if pyGet message "type" = .vStr "subscriptions" then
    pure ([none], none, none)
  else do
    let pid ← match dictGet? message "product_id" with
      | some (.vStr pid) => pure pid
      | _ => Except.error (.keyError "product_id")
    if pyGet message "type" = .vStr "match" then do
      let tc ← match dictGet? st.message_cache pid with
        | some tc => pure tc
        | none => Except.error (.keyError pid)
      pure (tc.trades, some .trades, some pid)
    else if pyGet message "type" ∈ MESSAGE_TYPES.map Value.vStr then do
      let tc ← match dictGet? st.message_cache pid with
        | some tc => pure tc
        | none => Except.error (.keyError pid)
      pure (tc.quotes, some .quotes, some pid)
    else if pyGet message "type" = .vStr "snapshot" ∨
            pyGet message "type" = .vStr "l2update" then do
      let tc ← match dictGet? st.message_cache pid with
        | some tc => pure tc
        | none => Except.error (.keyError pid)
      pure (tc.orderbook, some .orderbook, some pid)
    else
      Except.error .typeError

/-- `self.message_cache[pid][table_ref].clear()` (messages.py 285); `pid`
is present whenever this runs. -/
def clearCache (st : HandlerState) (pid : String) (tbl : TableRef) :
    HandlerState :=
  match dictGet? st.message_cache pid with
  | some tc =>
      { st with message_cache := dictSet st.message_cache pid (tc.clearTable tbl) }
  | none => st

/-- `MessageHandler.process_message` (messages.py 259-287): process one
frame, then, when the frame's cache has grown past `batch_size`, drain it
through `record_messages` and clear it.  Returns the new state and the
`insert_rows` calls performed by the drain. -/
def process_message (st : HandlerState) (now : String) (book : Msg)
    (raw : Msg) (batch_size : Nat) :
    HResult (HandlerState × List (List CacheEntry)) := do
  let (st, message) ← _process_message st now book raw
  if st.datasets then do
    let (cache, tblO, pidO) ← match _retrieve_message_cache st message with
      | .ok r => pure r
      | .error e => Except.error (st, e)
    if batch_size < cache.length then
      match tblO, pidO with
      | some table_ref, some pid => do
          let calls ← match record_messages table_ref cache with
            | .ok calls => pure calls
            | .error e => Except.error (st, e)
          pure (clearCache st pid table_ref, calls)
      | _, _ => Except.error (st, .keyError "None")
    else
      pure (st, [])
  else
    pure (st, [])

/-! ## `WebSocket.__init__` (websocket.py 27, 70-85) -/

def _UNSUPPORTED_CHANNELS : List String := ["ticker", "user", "matches", "heartbeat"]

/-- The subscription frame `self._subscribe` (websocket.py 76-81). -/
structure SubscribeMessage where
  type : String
  product_ids : List String
  channels : Value
  deriving DecidableEq

/-- Python `x in list_of_strings`: equality of `x` against each element. -/
def pyInStrList (v : Value) (l : List String) : Bool :=
  l.any (fun s => decide (v = .vStr s))

/-- `WebSocket.__init__` (websocket.py 70-85): builds the default
subscription frame when none is given, then applies the check
`self._subscribe["channels"] in _UNSUPPORTED_CHANNELS` — whose left operand
is the whole channels value, not its elements. -/
def WebSocket_init (product_ids : List String)
    (subscribe_message : Option SubscribeMessage) :
    Except PyErr SubscribeMessage :=
  let sub := subscribe_message.getD
    { type := "subscribe"
    , product_ids := product_ids
    , channels := .vList (.cons (.vStr "full") (.cons (.vStr "level2") .nil)) }
  if pyInStrList sub.channels _UNSUPPORTED_CHANNELS then
    .error .notImplementedError
  else
    .ok sub

/-! ## `AsyncAuthGoogleCloud` (authorize.py) and
`AsyncBigQuery.insert_rows_json` (interact.py) -/

def _TOKEN_EXPIRATION : Int := 3600

/-- Static identity read from the service file (authorize.py 52-59). -/
structure AuthConfig where
  token_uri : String
  signer_email : String
  scopes : String
  deriving DecidableEq

/-- The mutable auth state: `self._token_expiration` (an absolute instant in
seconds) and `self.token` (the token-endpoint response JSON, unset before
the first successful acquisition). -/
structure AuthState where
  token_expiration : Int
  token : Option Msg
  deriving DecidableEq

/-- The JWT claims built by `_make_jwt_for_audience` (authorize.py 76-82). -/
structure JwtPayload where
  aud : String
  iss : String
  iat : Int
  exp : Int
  scope : String
  deriving DecidableEq

/-- `_make_jwt_for_audience` (authorize.py 64-84): note that it assigns
`self._token_expiration = now + lifetime` before returning the signed
assertion, i.e. before any exchange takes place. -/
def _make_jwt_for_audience (cfg : AuthConfig) (st : AuthState) (now : Int) :
    AuthState × JwtPayload :=
  let expiration := now + _TOKEN_EXPIRATION
  ({ st with token_expiration := expiration },
   { aud := cfg.token_uri, iss := cfg.signer_email, iat := now,
     exp := expiration, scope := cfg.scopes })

/-- `_acquire_token` (authorize.py 86-106): builds the signed assertion
(already bumping the stored expiry), posts it to the token endpoint (an
external collaborator given by its response status and JSON), and only on
HTTP 200 stores the response as `self.token`. -/
def _acquire_token (cfg : AuthConfig) (st : AuthState) (now : Int)
    (respStatus : Nat) (respJson : Msg) :
    Except (AuthState × PyErr) AuthState :=
  let (st, _jwt) := _make_jwt_for_audience cfg st now
  if respStatus ≠ 200 then
    .error (st, .asyncAuthGoogleCloudError)
  else
    .ok { st with token := some respJson }

/-- The observable effects of one `insert_rows_json` call: how many
token-exchange POSTs ran before the insert request, the stored expiry at
the moment the insert request was issued, the bearer value attached to its
`authorization` header, the `(insertId, json)` rows of its body, and the
optional request flags that were set. -/
structure InsertTrace where
  exchange_calls : Nat
  expiry_at_request : Int
  bearer : Value
  request_rows : List (String × Msg)
  skipInvalidRows : Option Bool
  ignoreUnknownValues : Option Bool
  templateSuffix : Option String
  deriving DecidableEq

/-- The `for index, row in enumerate(json_rows)` loop of `insert_rows_json`
(interact.py 188-194): `(insertId, json)` per row, the id taken from
`row_ids[index]` when supplied (an out-of-range index raises) and from
`uuid4()` — the `uuids` supply — otherwise. -/
def build_rows_info (st : AuthState) (row_ids : Option (List String))
    (uuids : Nat → String) :
    List (Nat × Msg) → Except (AuthState × PyErr) (List (String × Msg))
  | [] => .ok []
  | p :: rest => do
      let info ← match row_ids with
        | some ids =>
          match ids.get? p.1 with
          | some rid => pure (rid, p.2)
          | none => Except.error (st, PyErr.indexError)
        | none => pure (uuids p.1, p.2)
      let tail ← build_rows_info st row_ids uuids rest
      pure (info :: tail)

/-- `AsyncBigQuery.insert_rows_json` (interact.py 130-229).  `uuids` models
the `uuid4()` supply for generated insert ids; `exchangeStatus`/
`exchangeJson` the token endpoint's response; `insertStatus` the insert
endpoint's HTTP status.  The body is assembled first (lines 185-210), then
the token is refreshed only when `utcnow() > self._token_expiration`
(lines 212-213), then the bearer header is read from
`self.token['access_token']` and the POST issued; a non-200 status raises.
The response's `insertErrors` parse is not needed by any claim and the
remote is modelled as accepting the rows. -/
def insert_rows_json (cfg : AuthConfig) (st : AuthState) (now : Int)
    (json_rows : List Msg) (row_ids : Option (List String))
    (uuids : Nat → String) (skip_invalid_rows : Option Bool)
    (ignore_unknown_values : Option Bool) (template_suffix : Option String)
    (exchangeStatus : Nat) (exchangeJson : Msg) (insertStatus : Nat) :
    Except (AuthState × PyErr) (AuthState × InsertTrace) := do
  let rows_info ← build_rows_info st row_ids uuids
    ((List.range json_rows.length).zip json_rows)
  let (st, calls) ←
    if now > st.token_expiration then do
      let st ← match _acquire_token cfg st now exchangeStatus exchangeJson with
        | .ok st => pure st
        | .error e => Except.error e
      pure (st, (1 : Nat))
    else pure (st, (0 : Nat))
  let tok ← match st.token with
    | some t => pure t
    | none => Except.error (st, PyErr.attributeError)
  let bearer ← match dictGet? tok "access_token" with
    | some v => pure v
    | none => Except.error (st, PyErr.keyError "access_token")
  if insertStatus ≠ 200 then
    Except.error (st, .asyncBigQueryError)
  else
    pure (st,
      { exchange_calls := calls
      , expiry_at_request := st.token_expiration
      , bearer := bearer
      , request_rows := rows_info
      , skipInvalidRows := skip_invalid_rows
      , ignoreUnknownValues := ignore_unknown_values
      , templateSuffix := template_suffix })

/-! ## Theorems -/

/-- The exception a failed handler computation raised, if any. -/
def resultErr {α : Type} : Except (HandlerState × PyErr) α → Option PyErr
  | .ok _ => none
  | .error (_, e) => some e

/-- A wire-format `asks`/`bids`/level list: pairs of decimal strings. -/
def encodePairs (l : List (String × String)) : Value :=
  .vList (VList.ofList (l.map (fun p =>
    Value.vList (VList.ofList [.vStr p.1, .vStr p.2]))))

/-- filtering `some`s out of a mapped-`some` list keeps everything. -/
theorem filter_isSome_map_some {α : Type} (l : List α) :
    (l.map some).filter (fun x => Option.isSome x) = l.map some := by
  induction l with
  | nil => rfl
  | cons a l ih => simp [ih]

/-- filtering `some`s out of a `none` pad drops everything. -/
theorem filter_isSome_replicate {α : Type} (k : Nat) :
    (List.replicate k (none : Option α)).filter (fun x => Option.isSome x) = [] := by
  induction k with
  | zero => rfl
  | succ k ih => simp [List.replicate_succ, ih]

/-- Filtering one padded chunk recovers exactly its `take`. -/
theorem filter_isSome_chunk (rows : List Msg) (n : Nat) :
    (((rows.take n).map some
        ++ List.replicate (n - rows.length) (none : CacheEntry)).filter
      (fun x => Option.isSome x)) = (rows.take n).map some := by
  rw [List.filter_append, filter_isSome_map_some, filter_isSome_replicate,
      List.append_nil]

/-- Joining the `None`-filtered chunks recovers every row exactly once, in
order. -/
theorem chunkerGo_join (n : Nat) (hn : n ≠ 0) :
    ∀ (fuel : Nat) (rows : List Msg), rows.length ≤ fuel →
      ((chunkerGo n fuel rows).map
        (fun c => c.filter (fun x => Option.isSome x))).flatten = rows.map some := by
  intro fuel
  induction fuel with
  | zero =>
      intro rows h
      have hr : rows = [] := List.length_eq_zero.mp (Nat.le_zero.mp h)
      subst hr
      rfl
  | succ fuel ih =>
      intro rows h
      match rows with
      | [] => rfl
      | r :: rest =>
          have hstep : chunkerGo n (fuel + 1) (r :: rest) =
              (((r :: rest).take n).map some
                ++ List.replicate (n - (r :: rest).length) none)
                :: chunkerGo n fuel ((r :: rest).drop n) := by
            simp only [chunkerGo, if_neg hn]
          have hlen : ((r :: rest).drop n).length ≤ fuel := by
            simp only [List.length_drop, List.length_cons]
            simp only [List.length_cons] at h
            omega
          rw [hstep, List.map_cons, List.flatten_cons, filter_isSome_chunk,
              ih ((r :: rest).drop n) hlen, ← List.map_append,
              List.take_append_drop]

/-- Every `None`-filtered chunk holds at most `n` rows. -/
theorem chunkerGo_length_le (n : Nat) :
    ∀ (fuel : Nat) (rows : List Msg) (c : List CacheEntry),
      c ∈ (chunkerGo n fuel rows).map
        (fun c => c.filter (fun x => Option.isSome x)) →
      c.length ≤ n := by
  intro fuel
  induction fuel with
  | zero =>
      intro rows c hc
      match rows with
      | [] => simp [chunkerGo] at hc
      | r :: rest => simp [chunkerGo] at hc
  | succ fuel ih =>
      intro rows c hc
      match rows with
      | [] => simp [chunkerGo] at hc
      | r :: rest =>
          by_cases hn : n = 0
          · simp [chunkerGo, hn] at hc
          · simp only [chunkerGo, if_neg hn, List.map_cons, List.mem_cons] at hc
            rcases hc with hc | hc
            · subst hc
              rw [filter_isSome_chunk]
              simp only [List.length_map, List.length_take]
              omega
            · exact ih _ _ hc

/-- Two raw snapshot frames for the fatal-overflow and drain scenarios. -/
def rawSnapA : Msg :=
  [("type", .vStr "snapshot"), ("product_id", .vStr "BTC-USD"),
   ("asks", encodePairs [("1.5", "2.0")]), ("bids", encodePairs [("1.4", "3.0")])]

def rawSnapB : Msg :=
  [("type", .vStr "snapshot"), ("product_id", .vStr "BTC-USD"),
   ("asks", encodePairs [("1.6", "2.5")]), ("bids", encodePairs [])]

/-- The overflow message of messages.py 188-190 (the source concatenates
the two string literals without a space). -/
def overflowErr : PyErr :=
  .messageHandlerError
    "Message cache overflow; check the snapshot frequency ornetwork connectivity"

/-- C2: (i) draining an orderbook cache holding more than one pending
snapshot ALWAYS raises the fatal cache-overflow error, for every
instrument's cache contents; (ii) end to end, two snapshot frames received
before a drain (batch threshold 1) make the drain fatal with exactly that
error; (iii) snapshot → drain → snapshot → drain (threshold 0, so every
frame drains) raises nothing. -/
theorem C2_snapshot_overflow :
    (∀ (msgs : List CacheEntry) (snaps : List Msg),
        filterByType "snapshot" msgs = .ok snaps → 1 < snaps.length →
        record_messages .orderbook msgs = .error overflowErr) ∧
    resultErr (do
      let (s1, _) ← process_message (initState ["BTC-USD"] true) "T0" [] rawSnapA 1
      process_message s1 "T1" [] rawSnapB 1) = some overflowErr ∧
    resultErr (do
      let (s1, _) ← process_message (initState ["BTC-USD"] true) "T0" [] rawSnapA 0
      process_message s1 "T1" [] rawSnapB 0) = none := by
  refine ⟨?_, by rfl, by rfl⟩
  intro msgs snaps hf hlen
  have hgt : snaps.length > 1 := hlen
  simp [record_messages, hf, hgt, overflowErr, bind, Except.bind]

/-- Witness for `C2_snapshot_overflow`'s universally quantified part: a
cache holding two pending snapshots overflows at drain. -/
theorem C2_witness :
    record_messages .orderbook
      [some [("type", .vStr "snapshot")], some [("type", .vStr "snapshot")]] =
      .error overflowErr :=
  C2_snapshot_overflow.1
    [some [("type", .vStr "snapshot")], some [("type", .vStr "snapshot")]]
    [[("type", .vStr "snapshot")], [("type", .vStr "snapshot")]]
    rfl (by decide)

/-- The flat row a snapshot `[level, depth]` string pair becomes once its
two components are parsed as decimals. -/
def snapRow (side : Int) (t : Value) (d : Dec × Dec) : Msg :=
  [("time", t), ("side", .vInt side), ("level", .vDec d.1), ("depth", .vDec d.2)]

/-- Converting an encoded list of parseable string pairs yields exactly one
`snapRow` per pair, in order. -/
theorem rowsOf_encoded (side : Int) (t : Value)
    (l : List ((String × String) × (Dec × Dec)))
    (hp : ∀ q ∈ l, parseDecimal? q.1.1 = some q.2.1 ∧
          parseDecimal? q.1.2 = some q.2.2) :
    rowsOf (.vInt side) t (l.map (fun q =>
        Value.vList (VList.ofList [.vStr q.1.1, .vStr q.1.2]))) =
      .ok (l.map (fun q => snapRow side t q.2)) := by
  induction l with
  | nil => rfl
  | cons q l ih =>
      obtain ⟨h1, h2⟩ := hp q (List.mem_cons_self q l)
      have ih' := ih (fun q hq => hp q (List.mem_cons_of_mem _ hq))
      simp only [VList.ofList] at ih' ⊢
      simp [rowsOf, convert_to_row, VList.toList, pyDecimal,
            h1, h2, ih', bind, Except.bind, pure, Except.pure, snapRow]

/-- The `insert_rows` calls a drained snapshot produces: its rows in
500-chunks with the `None` fills filtered back out. -/
def snapshotCalls (rows : List Msg) : List (List CacheEntry) :=
  (chunker rows _INSERT_STREAMING_BATCH_SIZE).map
    (fun c => c.filter (fun x => Option.isSome x))

set_option maxRecDepth 4000 in
/-- C6: draining a cache whose single pending snapshot carries time `t` and
parseable `asks`/`bids` string pairs performs `insert_rows` calls whose
rows are exactly the flattened asks (side +1) followed by the bids
(side −1), every row tagged with `t`, each row exactly once with no filler
rows, in chunks of at most 500 rows per call; and (end to end, concretely)
the `process_message` drain clears the pending snapshot from the orderbook
cache afterwards. -/
theorem C6_snapshot_drain (msgs : List CacheEntry) (snap : Msg) (t : Value)
    (asks bids : List ((String × String) × (Dec × Dec)))
    (hsnap : filterByType "snapshot" msgs = .ok [snap])
    (ht : dictGet? snap "time" = some t)
    (ha : dictGet? snap "asks" = some (.vList (VList.ofList (asks.map (fun q =>
            Value.vList (VList.ofList [.vStr q.1.1, .vStr q.1.2]))))))
    (hb : dictGet? snap "bids" = some (.vList (VList.ofList (bids.map (fun q =>
            Value.vList (VList.ofList [.vStr q.1.1, .vStr q.1.2]))))))
    (hpa : ∀ q ∈ asks, parseDecimal? q.1.1 = some q.2.1 ∧
           parseDecimal? q.1.2 = some q.2.2)
    (hpb : ∀ q ∈ bids, parseDecimal? q.1.1 = some q.2.1 ∧
           parseDecimal? q.1.2 = some q.2.2) :
    record_messages .orderbook msgs =
      .ok (snapshotCalls (asks.map (fun q => snapRow 1 t q.2)
            ++ bids.map (fun q => snapRow (-1) t q.2))) ∧
    (snapshotCalls (asks.map (fun q => snapRow 1 t q.2)
        ++ bids.map (fun q => snapRow (-1) t q.2))).flatten =
      (asks.map (fun q => snapRow 1 t q.2)
        ++ bids.map (fun q => snapRow (-1) t q.2)).map some ∧
    (∀ c ∈ snapshotCalls (asks.map (fun q => snapRow 1 t q.2)
        ++ bids.map (fun q => snapRow (-1) t q.2)), c.length ≤ 500) ∧
    process_message (initState ["BTC-USD"] true) "T0" [] rawSnapA 0 =
      .ok ({ sequences := [("BTC_USD", 0)], datasets := true,
             message_cache := [("BTC_USD",
               { trades := [], quotes := [], orderbook := [] })] },
           [[some [("time", .vTime "T0"), ("side", .vInt 1),
                   ("level", .vDec ⟨15, 1⟩), ("depth", .vDec ⟨20, 1⟩)],
             some [("time", .vTime "T0"), ("side", .vInt (-1)),
                   ("level", .vDec ⟨14, 1⟩), ("depth", .vDec ⟨30, 1⟩)]]]) := by
  have hA := rowsOf_encoded 1 t asks hpa
  have hB := rowsOf_encoded (-1) t bids hpb
  refine ⟨?_, ?_, ?_, by rfl⟩
  · simp [record_messages, hsnap, bind, Except.bind, pure, Except.pure,
          dictGetItem, ht, ha, hb, VList.toList_ofList, hA, hB, snapshotCalls]
  · exact chunkerGo_join 500 (by decide) _ _ (Nat.le_refl _)
  · intro c hc
    exact chunkerGo_length_le 500 _ _ c hc

/-- Witness for `C6_snapshot_drain`: a one-snapshot cache with one ask and
one bid. -/
theorem C6_witness :
    record_messages .orderbook
      [some [("type", .vStr "snapshot"), ("time", .vTime "T0"),
             ("asks", encodePairs [("1.5", "2.0")]),
             ("bids", encodePairs [("1.4", "3.0")])]] =
      .ok (snapshotCalls
        ([(("1.5", "2.0"), ((⟨15, 1⟩ : Dec), (⟨20, 1⟩ : Dec)))].map
            (fun q => snapRow 1 (.vTime "T0") q.2)
          ++ [(("1.4", "3.0"), ((⟨14, 1⟩ : Dec), (⟨30, 1⟩ : Dec)))].map
            (fun q => snapRow (-1) (.vTime "T0") q.2))) :=
  (C6_snapshot_drain
    [some [("type", .vStr "snapshot"), ("time", .vTime "T0"),
           ("asks", encodePairs [("1.5", "2.0")]),
           ("bids", encodePairs [("1.4", "3.0")])]]
    [("type", .vStr "snapshot"), ("time", .vTime "T0"),
     ("asks", encodePairs [("1.5", "2.0")]),
     ("bids", encodePairs [("1.4", "3.0")])]
    (.vTime "T0")
    [(("1.5", "2.0"), (⟨15, 1⟩, ⟨20, 1⟩))]
    [(("1.4", "3.0"), (⟨14, 1⟩, ⟨30, 1⟩))]
    rfl rfl rfl rfl
    (by intro q hq; simp at hq; subst hq; exact ⟨rfl, rfl⟩)
    (by intro q hq; simp at hq; subst hq; exact ⟨rfl, rfl⟩)).1

theorem dictGet?_cons {α : Type} (p : String × α) (rest : List (String × α))
    (k : String) :
    dictGet? (p :: rest) k = if p.1 = k then some p.2 else dictGet? rest k :=
  rfl

theorem dictGet?_map_update_ne {α : Type} (rest : List (String × α))
    (k k' : String) (v : α) (h : k ≠ k') :
    dictGet? (rest.map (fun p => if p.1 = k then (k, v) else p)) k' =
      dictGet? rest k' := by
  induction rest with
  | nil => rfl
  | cons p rest ih =>
      simp only [List.map_cons]
      by_cases hp : p.1 = k
      · have hp' : ¬ p.1 = k' := fun hh => h (hp.symm.trans hh)
        rw [if_pos hp, dictGet?_cons, dictGet?_cons, if_neg h, if_neg hp', ih]
      · rw [if_neg hp, dictGet?_cons, dictGet?_cons, ih]

theorem dictGet?_map_update_self {α : Type} (rest : List (String × α))
    (k : String) (v : α) (hsome : (dictGet? rest k).isSome) :
    dictGet? (rest.map (fun p => if p.1 = k then (k, v) else p)) k = some v := by
  induction rest with
  | nil => simp [dictGet?] at hsome
  | cons p rest ih =>
      simp only [List.map_cons]
      by_cases hp : p.1 = k
      · rw [if_pos hp, dictGet?_cons, if_pos rfl]
      · rw [dictGet?_cons, if_neg hp] at hsome
        rw [if_neg hp, dictGet?_cons, if_neg hp, ih hsome]

theorem dictGet?_append_last_ne {α : Type} (rest : List (String × α))
    (k k' : String) (v : α) (h : k ≠ k') :
    dictGet? (rest ++ [(k, v)]) k' = dictGet? rest k' := by
  induction rest with
  | nil => simp [dictGet?, h]
  | cons p rest ih =>
      rw [List.cons_append, dictGet?_cons, dictGet?_cons, ih]

theorem dictGet?_append_last_self {α : Type} (rest : List (String × α))
    (k : String) (v : α) (hnone : dictGet? rest k = none) :
    dictGet? (rest ++ [(k, v)]) k = some v := by
  induction rest with
  | nil => simp [dictGet?]
  | cons p rest ih =>
      rw [dictGet?_cons] at hnone
      by_cases hp : p.1 = k
      · rw [if_pos hp] at hnone
        exact absurd hnone (by simp)
      · rw [if_neg hp] at hnone
        rw [List.cons_append, dictGet?_cons, if_neg hp, ih hnone]

/-- Looking up the key just assigned finds the new value. -/
theorem dictGet?_dictSet_self {α : Type} (m : List (String × α)) (k : String)
    (v : α) : dictGet? (dictSet m k v) k = some v := by
  unfold dictSet
  split
  case isTrue hsome => exact dictGet?_map_update_self m k v hsome
  case isFalse hnone =>
    exact dictGet?_append_last_self m k v (Option.not_isSome_iff_eq_none.mp hnone)

/-- Assigning one key leaves every other key's binding unchanged. -/
theorem dictGet?_dictSet_ne {α : Type} (m : List (String × α)) (k k' : String)
    (v : α) (h : k ≠ k') : dictGet? (dictSet m k v) k' = dictGet? m k' := by
  unfold dictSet
  split
  case isTrue => exact dictGet?_map_update_ne m k k' v h
  case isFalse => exact dictGet?_append_last_ne m k k' v h

/-! Facts about assignments that do not change a dict, used to show the
normalizer is a no-op on its own output. -/

theorem dictGet?_isSome_iff_mem {α : Type} (m : List (String × α)) (k : String) :
    (dictGet? m k).isSome ↔ k ∈ m.map Prod.fst := by
  induction m with
  | nil => simp [dictGet?]
  | cons p rest ih =>
      rw [dictGet?_cons]
      by_cases hp : p.1 = k
      · subst hp
        simp
      · rw [if_neg hp]
        simp only [List.map_cons, List.mem_cons, ih]
        exact ⟨fun h => Or.inr h, fun h => h.resolve_left (fun hh => hp hh.symm)⟩

theorem map_update_eq_self {α : Type} (rest : List (String × α)) (k : String)
    (v : α) (hnot : k ∉ rest.map Prod.fst) :
    rest.map (fun q => if q.1 = k then (k, v) else q) = rest := by
  induction rest with
  | nil => rfl
  | cons p rest ih =>
      simp only [List.map_cons, List.mem_cons, not_or] at hnot ⊢
      rw [if_neg (fun h => hnot.1 h.symm), ih hnot.2]

/-- Re-assigning a key to the value it already holds is a no-op (keys are
unique, as in a Python dict). -/
theorem dictSet_eq_self {α : Type} (m : List (String × α)) (k : String) (v : α)
    (hnd : (m.map Prod.fst).Nodup) (h : dictGet? m k = some v) :
    dictSet m k v = m := by
  unfold dictSet
  rw [h]
  simp only [Option.isSome_some, if_true]
  induction m with
  | nil => simp [dictGet?] at h
  | cons p rest ih =>
      rw [dictGet?_cons] at h
      simp only [List.map_cons, List.nodup_cons] at hnd
      by_cases hp : p.1 = k
      · rw [if_pos hp] at h
        simp only [List.map_cons, if_pos hp]
        injection h with hv
        have hnotk : k ∉ rest.map Prod.fst := by
          intro hmem
          exact hnd.1 (by rw [hp]; exact hmem)
        have hrest : rest.map (fun q => if q.1 = k then (k, v) else q) = rest :=
          map_update_eq_self rest k v hnotk
        rw [hrest, ← hp, ← hv]
      · rw [if_neg hp] at h
        simp only [List.map_cons, if_neg hp]
        rw [ih hnd.2 h]

theorem keys_map_update {α : Type} (m : List (String × α)) (k : String) (v : α) :
    (m.map (fun q => if q.1 = k then (k, v) else q)).map Prod.fst =
      m.map Prod.fst := by
  induction m with
  | nil => rfl
  | cons p rest ih =>
      simp only [List.map_cons, ih]
      by_cases hp : p.1 = k
      · rw [if_pos hp, hp]
      · rw [if_neg hp]

/-- Assignment preserves key uniqueness. -/
theorem dictSet_keys_nodup {α : Type} (m : List (String × α)) (k : String)
    (v : α) (hnd : (m.map Prod.fst).Nodup) :
    ((dictSet m k v).map Prod.fst).Nodup := by
  unfold dictSet
  split
  case isTrue => rw [keys_map_update]; exact hnd
  case isFalse hnone =>
    have hk : k ∉ m.map Prod.fst := by
      rw [← dictGet?_isSome_iff_mem]
      exact hnone
    rw [List.map_append]
    simp only [List.map_cons, List.map_nil]
    rw [List.nodup_append]
    refine ⟨hnd, List.nodup_singleton k, ?_⟩
    intro a ha hb
    simp only [List.mem_singleton] at hb
    subst hb
    exact hk ha

theorem list_set_eq_self {α : Type} (l : List α) (i : Nat) (v : α)
    (h : l.get? i = some v) : l.set i v = l := by
  induction l generalizing i with
  | nil => simp [List.get?] at h
  | cons a rest ih =>
      match i with
      | 0 =>
          simp only [List.get?] at h
          injection h with hv
          simp only [List.set]
          rw [← hv]
      | i + 1 =>
          simp only [List.get?] at h
          simp only [List.set]
          rw [ih i h]

theorem list_get?_set_ne {α : Type} (l : List α) (i j : Nat) (v : α)
    (h : i ≠ j) : (l.set i v).get? j = l.get? j := by
  induction l generalizing i j with
  | nil => rfl
  | cons a rest ih =>
      match i, j with
      | 0, 0 => exact absurd rfl h
      | 0, j + 1 => rfl
      | i + 1, 0 => rfl
      | i + 1, j + 1 =>
          simp only [List.set, List.get?]
          exact ih i j (fun hh => h (by rw [hh]))

theorem list_get?_set_self {α : Type} (l : List α) (i : Nat) (v w : α)
    (h : l.get? i = some w) : (l.set i v).get? i = some v := by
  induction l generalizing i with
  | nil => simp [List.get?] at h
  | cons a rest ih =>
      match i with
      | 0 => rfl
      | i + 1 => simp only [List.get?] at h ⊢; exact ih i h

/-! Shape lemmas: what each `_validate_message` stanza does to the dict,
used for the idempotence analysis. -/

theorem _vm_time_shape (now : String) (m m' : Msg)
    (h : _vm_time now m = .ok m') : ∃ x, m' = dictSet m "time" x := by
  unfold _vm_time at h
  split at h
  · cases hp : parse_datetime (pyGet m "time") with
    | error e =>
        rw [hp] at h
        simp [bind, Except.bind] at h
    | ok t =>
        rw [hp] at h
        simp only [bind, Except.bind, pure, Except.pure] at h
        exact ⟨t, by injection h with hh; exact hh.symm⟩
  · split at h
    · exact ⟨.vTime now, by injection h with hh; exact hh.symm⟩
    · exact ⟨.vNone, by injection h with hh; exact hh.symm⟩

theorem _vm_product_id_shape (m m' : Msg) (h : _vm_product_id m = .ok m') :
    (m' = m ∧ truthy (pyGet m "product_id") = false) ∨
    ∃ s, pyGet m "product_id" = .vStr s ∧
      m' = dictSet m "product_id" (.vStr (replaceDash s)) := by
  unfold _vm_product_id at h
  split at h
  · split at h
    case _ s heq =>
      refine Or.inr ⟨s, heq, ?_⟩
      injection h with hh
      exact hh.symm
    case _ => simp at h
  case isFalse htr =>
    refine Or.inl ⟨by injection h with hh; exact hh.symm, by simpa using htr⟩

theorem _vm_changes_shape (m m' : Msg) (flag : Bool)
    (h : _vm_changes m = .ok (m', flag)) :
    (m' = m ∧ flag = false ∧ truthy (pyGet m "changes") = false) ∨
    (flag = true ∧ ∃ c0 rest a0 b c bq cq,
      pyGet m "changes" = .vList (.cons (.vList c0) rest) ∧
      c0.toList.get? 0 = some a0 ∧
      c0.toList.get? 1 = some b ∧ pyDecimal b = .ok bq ∧
      c0.toList.get? 2 = some c ∧ pyDecimal c = .ok cq ∧
      m' = dictSet m "changes" (.vList (.cons (.vList (VList.ofList
        (((c0.toList.set 0 (transformSide a0)).set 1 (.vDec bq)).set 2
          (.vDec cq)))) rest))) := by
  unfold _vm_changes at h
  split at h
  case isTrue htr =>
    split at h
    case _ c0 rest heq =>
      split at h
      next ha0 => simp at h
      next a0 ha0 =>
        split at h
        next hb => simp at h
        next b hb =>
          split at h
          next e hbq => simp at h
          next bq hbq =>
            split at h
            next hc => simp at h
            next c hc =>
              split at h
              next e hcq => simp at h
              next cq hcq =>
                injection h with hh
                have h1 := congrArg Prod.fst hh
                have h2 := congrArg Prod.snd hh
                simp only at h1 h2
                exact Or.inr ⟨h2.symm, c0, rest, a0, b, c, bq, cq, heq,
                  ha0, hb, hbq, hc, hcq, h1.symm⟩
    all_goals simp at h
  case isFalse htr =>
    injection h with hh
    have h1 := congrArg Prod.fst hh
    have h2 := congrArg Prod.snd hh
    simp only at h1 h2
    exact Or.inl ⟨h1.symm, h2.symm, by simpa using htr⟩

theorem _vm_decimal_field_shape (k : String) (m m' : Msg)
    (h : _vm_decimal_field k m = .ok m') :
    (m' = m ∧ truthy (pyGet m k) = false) ∨
    ∃ q, pyDecimal (pyGet m k) = .ok q ∧ m' = dictSet m k (.vDec q) := by
  unfold _vm_decimal_field at h
  split at h
  case isTrue htr =>
    cases hq : pyDecimal (pyGet m k) with
    | error e => rw [hq] at h; simp [bind, Except.bind] at h
    | ok q =>
        rw [hq] at h
        simp only [bind, Except.bind, pure, Except.pure] at h
        injection h with hh
        exact Or.inr ⟨q, rfl, hh.symm⟩
  case isFalse htr =>
    injection h with hh
    exact Or.inl ⟨hh.symm, by simpa using htr⟩

theorem _vm_int_field_shape (k : String) (m m' : Msg)
    (h : _vm_int_field k m = .ok m') :
    (m' = m ∧ truthy (pyGet m k) = false) ∨
    ∃ n, pyInt (pyGet m k) = .ok n ∧ m' = dictSet m k (.vInt n) := by
  unfold _vm_int_field at h
  split at h
  case isTrue htr =>
    cases hn : pyInt (pyGet m k) with
    | error e => rw [hn] at h; simp [bind, Except.bind] at h
    | ok n =>
        rw [hn] at h
        simp only [bind, Except.bind, pure, Except.pure] at h
        injection h with hh
        exact Or.inr ⟨n, rfl, hh.symm⟩
  case isFalse htr =>
    injection h with hh
    exact Or.inl ⟨hh.symm, by simpa using htr⟩

theorem _vm_side_shape (m : Msg) :
    _vm_side m = m ∨
    _vm_side m = dictSet m "side" (.vInt 1) ∨
    _vm_side m = dictSet m "side" (.vInt (-1)) := by
  by_cases htr : truthy (pyGet m "side")
  · by_cases hb : pyGet m "side" = .vStr "buy"
    · have h2 : pyGet (dictSet m "side" (.vInt 1)) "side" = .vInt 1 := by
        simp [pyGet, dictGet?_dictSet_self]
      exact Or.inr (Or.inl (by
        simp [_vm_side, htr, hb, h2,
              (by decide : truthy (Value.vStr "buy") = true)]))
    · by_cases hs : pyGet m "side" = .vStr "sell"
      · exact Or.inr (Or.inr (by
          simp [_vm_side, htr, hb, hs,
                (by decide : truthy (Value.vStr "sell") = true)]))
      · exact Or.inl (by simp [_vm_side, htr, hb, hs])
  · exact Or.inl (by simp [_vm_side, htr])

/-! Per-step key preservation and key-uniqueness preservation. -/

theorem _vm_type_get_ne (m : Msg) (k : String) (hk : k ≠ "type") :
    dictGet? (_vm_type m) k = dictGet? m k :=
  dictGet?_dictSet_ne m "type" k _ (fun h => hk h.symm)

theorem _vm_type_nodup (m : Msg) (hnd : (m.map Prod.fst).Nodup) :
    ((_vm_type m).map Prod.fst).Nodup :=
  dictSet_keys_nodup m "type" _ hnd

theorem _vm_time_get_ne (now : String) (m m' : Msg)
    (h : _vm_time now m = .ok m') (k : String) (hk : k ≠ "time") :
    dictGet? m' k = dictGet? m k := by
  obtain ⟨x, rfl⟩ := _vm_time_shape now m m' h
  exact dictGet?_dictSet_ne m "time" k x (fun hh => hk hh.symm)

theorem _vm_time_nodup (now : String) (m m' : Msg)
    (h : _vm_time now m = .ok m') (hnd : (m.map Prod.fst).Nodup) :
    (m'.map Prod.fst).Nodup := by
  obtain ⟨x, rfl⟩ := _vm_time_shape now m m' h
  exact dictSet_keys_nodup m "time" x hnd

theorem _vm_product_id_get_ne (m m' : Msg) (h : _vm_product_id m = .ok m')
    (k : String) (hk : k ≠ "product_id") :
    dictGet? m' k = dictGet? m k := by
  rcases _vm_product_id_shape m m' h with ⟨rfl, -⟩ | ⟨s, _, rfl⟩
  · rfl
  · exact dictGet?_dictSet_ne m "product_id" k _ (fun hh => hk hh.symm)

theorem _vm_product_id_nodup (m m' : Msg) (h : _vm_product_id m = .ok m')
    (hnd : (m.map Prod.fst).Nodup) : (m'.map Prod.fst).Nodup := by
  rcases _vm_product_id_shape m m' h with ⟨rfl, -⟩ | ⟨s, _, rfl⟩
  · exact hnd
  · exact dictSet_keys_nodup m "product_id" _ hnd

theorem _vm_changes_get_ne (m m' : Msg) (flag : Bool)
    (h : _vm_changes m = .ok (m', flag)) (k : String) (hk : k ≠ "changes") :
    dictGet? m' k = dictGet? m k := by
  rcases _vm_changes_shape m m' flag h with ⟨rfl, -, -⟩ |
    ⟨-, c0, rest, a0, b, c, bq, cq, -, -, -, -, -, -, rfl⟩
  · rfl
  · exact dictGet?_dictSet_ne m "changes" k _ (fun hh => hk hh.symm)

theorem _vm_changes_nodup (m m' : Msg) (flag : Bool)
    (h : _vm_changes m = .ok (m', flag)) (hnd : (m.map Prod.fst).Nodup) :
    (m'.map Prod.fst).Nodup := by
  rcases _vm_changes_shape m m' flag h with ⟨rfl, -, -⟩ |
    ⟨-, c0, rest, a0, b, c, bq, cq, -, -, -, -, -, -, rfl⟩
  · exact hnd
  · exact dictSet_keys_nodup m "changes" _ hnd

theorem _vm_decimal_field_get_ne (k0 : String) (m m' : Msg)
    (h : _vm_decimal_field k0 m = .ok m') (k : String) (hk : k ≠ k0) :
    dictGet? m' k = dictGet? m k := by
  rcases _vm_decimal_field_shape k0 m m' h with ⟨rfl, -⟩ | ⟨q, -, rfl⟩
  · rfl
  · exact dictGet?_dictSet_ne m k0 k _ (fun hh => hk hh.symm)

theorem _vm_decimal_field_nodup (k0 : String) (m m' : Msg)
    (h : _vm_decimal_field k0 m = .ok m') (hnd : (m.map Prod.fst).Nodup) :
    (m'.map Prod.fst).Nodup := by
  rcases _vm_decimal_field_shape k0 m m' h with ⟨rfl, -⟩ | ⟨q, -, rfl⟩
  · exact hnd
  · exact dictSet_keys_nodup m k0 _ hnd

theorem _vm_int_field_get_ne (k0 : String) (m m' : Msg)
    (h : _vm_int_field k0 m = .ok m') (k : String) (hk : k ≠ k0) :
    dictGet? m' k = dictGet? m k := by
  rcases _vm_int_field_shape k0 m m' h with ⟨rfl, -⟩ | ⟨n, -, rfl⟩
  · rfl
  · exact dictGet?_dictSet_ne m k0 k _ (fun hh => hk hh.symm)

theorem _vm_int_field_nodup (k0 : String) (m m' : Msg)
    (h : _vm_int_field k0 m = .ok m') (hnd : (m.map Prod.fst).Nodup) :
    (m'.map Prod.fst).Nodup := by
  rcases _vm_int_field_shape k0 m m' h with ⟨rfl, -⟩ | ⟨n, -, rfl⟩
  · exact hnd
  · exact dictSet_keys_nodup m k0 _ hnd

theorem _vm_side_get_ne (m : Msg) (k : String) (hk : k ≠ "side") :
    dictGet? (_vm_side m) k = dictGet? m k := by
  rcases _vm_side_shape m with hs | hs | hs <;> rw [hs]
  · exact dictGet?_dictSet_ne m "side" k _ (fun hh => hk hh.symm)
  · exact dictGet?_dictSet_ne m "side" k _ (fun hh => hk hh.symm)

theorem _vm_side_nodup (m : Msg) (hnd : (m.map Prod.fst).Nodup) :
    ((_vm_side m).map Prod.fst).Nodup := by
  rcases _vm_side_shape m with hs | hs | hs <;> rw [hs]
  · exact hnd
  · exact dictSet_keys_nodup m "side" _ hnd
  · exact dictSet_keys_nodup m "side" _ hnd

theorem replaceDash_idem (s : String) :
    replaceDash (replaceDash s) = replaceDash s := by
  unfold replaceDash
  show String.mk _ = String.mk _
  simp only [List.map_map]
  congr 1
  apply List.map_congr_left
  intro c _
  by_cases hc : c = '-' <;> simp [hc, Function.comp]

theorem transformSide_idem (a : Value) :
    transformSide (transformSide a) = transformSide a := by
  unfold transformSide
  by_cases hb : a = .vStr "buy"
  · simp [hb]
  · by_cases hs : a = .vStr "sell"
    · simp [hb, hs]
    · simp [hb, hs]

/-- When the wire message carries no usable time and is not a snapshot, the
time stanza just pins `None`. -/
theorem _vm_time_cold (now : String) (m : Msg)
    (h1 : truthy (pyGet m "time") = false)
    (h2 : pyGet m "type" ≠ .vStr "snapshot") :
    _vm_time now m = .ok (dictSet m "time" .vNone) := by
  unfold _vm_time
  rw [if_neg (by simp [h1]), if_neg h2]
  rfl

/-! "Settled" lemmas: every stanza is a no-op on (a dict agreeing with) its
own output — except the time stanza, which re-parses a parsed datetime. -/

theorem _vm_type_settled (r : Msg) (v : Value)
    (hnd : (r.map Prod.fst).Nodup) (h : dictGet? r "type" = some v) :
    _vm_type r = r := by
  unfold _vm_type
  rw [h]
  exact dictSet_eq_self r "type" v hnd h

theorem _vm_time_settled (now : String) (r : Msg)
    (hnd : (r.map Prod.fst).Nodup)
    (ht : dictGet? r "time" = some .vNone)
    (hsnap : pyGet r "type" ≠ .vStr "snapshot") :
    _vm_time now r = .ok r := by
  rw [_vm_time_cold now r (by simp [pyGet, ht, truthy]) hsnap,
      dictSet_eq_self r "time" _ hnd ht]

theorem _vm_product_id_settled (m m' r : Msg) (h : _vm_product_id m = .ok m')
    (hnd : (r.map Prod.fst).Nodup)
    (hag : dictGet? r "product_id" = dictGet? m' "product_id") :
    _vm_product_id r = .ok r := by
  rcases _vm_product_id_shape m m' h with ⟨he, hF⟩ | ⟨s, hs, rfl⟩
  · subst he
    unfold _vm_product_id
    have hpy : pyGet r "product_id" = pyGet m' "product_id" := by
      rw [pyGet, pyGet, hag]
    rw [if_neg (by simp [hpy, hF])]
    rfl
  · have hval : dictGet? r "product_id" = some (.vStr (replaceDash s)) := by
      rw [hag]
      exact dictGet?_dictSet_self m "product_id" _
    have hpy : pyGet r "product_id" = .vStr (replaceDash s) := by
      simp [pyGet, hval]
    unfold _vm_product_id
    by_cases htr : truthy (pyGet r "product_id")
    · rw [if_pos htr]
      simp only [hpy]
      rw [replaceDash_idem]
      rw [dictSet_eq_self r "product_id" _ hnd hval]
      rfl
    · rw [if_neg htr]
      rfl

theorem _vm_changes_settled (m m' r : Msg) (flag : Bool)
    (h : _vm_changes m = .ok (m', flag))
    (hnd : (r.map Prod.fst).Nodup)
    (hag : dictGet? r "changes" = dictGet? m' "changes") :
    _vm_changes r = .ok (r, flag) := by
  rcases _vm_changes_shape m m' flag h with ⟨he, hf, hF⟩ |
    ⟨hf, c0, rest, a0, b, c, bq, cq, heq, ha0, hb, hbq, hc, hcq, hm'⟩
  · subst he
    subst hf
    unfold _vm_changes
    have hpy : pyGet r "changes" = pyGet m' "changes" := by
      rw [pyGet, pyGet, hag]
    rw [if_neg (by simp [hpy, hF])]
  · subst hf
    subst hm'
    have hval : dictGet? r "changes" = some (.vList (.cons (.vList (VList.ofList
        (((c0.toList.set 0 (transformSide a0)).set 1 (.vDec bq)).set 2
          (.vDec cq)))) rest)) := by
      rw [hag]
      exact dictGet?_dictSet_self m "changes" _
    have hpy : pyGet r "changes" = .vList (.cons (.vList (VList.ofList
        (((c0.toList.set 0 (transformSide a0)).set 1 (.vDec bq)).set 2
          (.vDec cq)))) rest) := by
      simp [pyGet, hval]
    have hsome0 : (c0.toList.get? 0).isSome := by rw [ha0]; rfl
    have hsome1 : ((c0.toList.set 0 (transformSide a0)).get? 1).isSome := by
      rw [list_get?_set_ne _ _ _ _ (by decide), hb]
      rfl
    have ha0' : (((c0.toList.set 0 (transformSide a0)).set 1 (.vDec bq)).set 2
        (.vDec cq)).get? 0 = some (transformSide a0) := by
      rw [list_get?_set_ne _ _ _ _ (by decide),
          list_get?_set_ne _ _ _ _ (by decide)]
      exact list_get?_set_self _ _ _ _ ha0
    have hb' : (((c0.toList.set 0 (transformSide a0)).set 1 (.vDec bq)).set 2
        (.vDec cq)).get? 1 = some (.vDec bq) := by
      rw [list_get?_set_ne _ _ _ _ (by decide)]
      exact list_get?_set_self _ _ _ _
        (by rw [list_get?_set_ne _ _ _ _ (by decide)]; exact hb)
    have hc' : (((c0.toList.set 0 (transformSide a0)).set 1 (.vDec bq)).set 2
        (.vDec cq)).get? 2 = some (.vDec cq) := by
      apply list_get?_set_self
      rw [list_get?_set_ne _ _ _ _ (by decide),
          list_get?_set_ne _ _ _ _ (by decide)]
      exact hc
    unfold _vm_changes
    rw [if_pos (by rw [hpy]; rfl)]
    simp only [hpy, VList.toList_ofList, ha0', hb', hc', pyDecimal,
               transformSide_idem]
    rw [list_set_eq_self _ _ _ ha0', list_set_eq_self _ _ _ hb',
        list_set_eq_self _ _ _ hc']
    rw [dictSet_eq_self r "changes" _ hnd hval]

theorem _vm_decimal_field_settled (k : String) (m m' r : Msg)
    (h : _vm_decimal_field k m = .ok m')
    (hnd : (r.map Prod.fst).Nodup)
    (hag : dictGet? r k = dictGet? m' k) :
    _vm_decimal_field k r = .ok r := by
  rcases _vm_decimal_field_shape k m m' h with ⟨he, hF⟩ | ⟨q, hq, he⟩
  · subst he
    unfold _vm_decimal_field
    have hpy : pyGet r k = pyGet m' k := by rw [pyGet, pyGet, hag]
    rw [if_neg (by simp [hpy, hF])]
    rfl
  · subst he
    have hval : dictGet? r k = some (.vDec q) := by
      rw [hag]
      exact dictGet?_dictSet_self m k _
    have hpy : pyGet r k = .vDec q := by simp [pyGet, hval]
    unfold _vm_decimal_field
    by_cases htr : truthy (pyGet r k)
    · rw [if_pos htr]
      simp only [hpy, pyDecimal, bind, Except.bind, pure, Except.pure]
      rw [dictSet_eq_self r k _ hnd hval]
    · rw [if_neg htr]
      rfl

theorem _vm_int_field_settled (k : String) (m m' r : Msg)
    (h : _vm_int_field k m = .ok m')
    (hnd : (r.map Prod.fst).Nodup)
    (hag : dictGet? r k = dictGet? m' k) :
    _vm_int_field k r = .ok r := by
  rcases _vm_int_field_shape k m m' h with ⟨he, hF⟩ | ⟨n, hn, he⟩
  · subst he
    unfold _vm_int_field
    have hpy : pyGet r k = pyGet m' k := by rw [pyGet, pyGet, hag]
    rw [if_neg (by simp [hpy, hF])]
    rfl
  · subst he
    have hval : dictGet? r k = some (.vInt n) := by
      rw [hag]
      exact dictGet?_dictSet_self m k _
    have hpy : pyGet r k = .vInt n := by simp [pyGet, hval]
    unfold _vm_int_field
    by_cases htr : truthy (pyGet r k)
    · rw [if_pos htr]
      simp only [hpy, pyInt, bind, Except.bind, pure, Except.pure]
      rw [dictSet_eq_self r k _ hnd hval]
    · rw [if_neg htr]
      rfl

/-- The `side` stanza's output is never again a textual side. -/
theorem _vm_side_out (m : Msg) :
    truthy (pyGet (_vm_side m) "side") = false ∨
    (pyGet (_vm_side m) "side" ≠ .vStr "buy" ∧
     pyGet (_vm_side m) "side" ≠ .vStr "sell") := by
  by_cases htr : truthy (pyGet m "side")
  · by_cases hb : pyGet m "side" = .vStr "buy"
    · have hout : _vm_side m = dictSet m "side" (.vInt 1) := by
        have h2 : pyGet (dictSet m "side" (.vInt 1)) "side" = .vInt 1 := by
          simp [pyGet, dictGet?_dictSet_self]
        simp [_vm_side, htr, hb, h2,
              (by decide : truthy (Value.vStr "buy") = true)]
      rw [hout]
      refine Or.inr ⟨?_, ?_⟩ <;> simp [pyGet, dictGet?_dictSet_self]
    · by_cases hs : pyGet m "side" = .vStr "sell"
      · have hout : _vm_side m = dictSet m "side" (.vInt (-1)) := by
          simp [_vm_side, htr, hb, hs,
                (by decide : truthy (Value.vStr "sell") = true)]
        rw [hout]
        refine Or.inr ⟨?_, ?_⟩ <;> simp [pyGet, dictGet?_dictSet_self]
      · have hout : _vm_side m = m := by simp [_vm_side, htr, hb, hs]
        rw [hout]
        exact Or.inr ⟨hb, hs⟩
  · have hout : _vm_side m = m := by simp [_vm_side, htr]
    rw [hout]
    exact Or.inl (by simpa using htr)

theorem _vm_side_settled (m r : Msg)
    (hag : pyGet r "side" = pyGet (_vm_side m) "side") :
    _vm_side r = r := by
  rcases _vm_side_out m with hF | ⟨hnb, hns⟩
  · have h1 : truthy (pyGet r "side") = false := by rw [hag]; exact hF
    simp [_vm_side, h1]
  · by_cases htr : truthy (pyGet r "side")
    · have h1 : pyGet r "side" ≠ .vStr "buy" := by rw [hag]; exact hnb
      have h2 : pyGet r "side" ≠ .vStr "sell" := by rw [hag]; exact hns
      simp [_vm_side, htr, h1, h2]
    · simp [_vm_side, htr]

/-- The dict keys `_validate_message` knows about (the keys of all its
stanzas); every other key passes through untouched. -/
def recognizedKeys : List String :=
  ["type", "time", "product_id", "changes", "price", "funds", "size",
   "remaining_size", "sequence", "trade_id", "side"]

/-- `_validate_message` never mutates a field it does not recognize. -/
theorem validate_preserves_unrecognized (now : String) (raw r : Msg)
    (h : _validate_message now raw = .ok r) (k : String)
    (hk : k ∉ recognizedKeys) :
    dictGet? r k = dictGet? raw k := by
  simp only [recognizedKeys, List.mem_cons, List.not_mem_nil, or_false,
    not_or] at hk
  obtain ⟨hk1, hk2, hk3, hk4, hk5, hk6, hk7, hk8, hk9, hk10, hk11⟩ := hk
  unfold _validate_message at h
  split at h
  next e => simp at h
  next m2 ht =>
  split at h
  next e => simp at h
  next m3 hp =>
  split at h
  next e => simp at h
  next m4 flag hc =>
  split at h
  case isTrue hflag =>
    injection h with hh
    subst hh
    rw [_vm_changes_get_ne m3 m4 flag hc k hk4,
        _vm_product_id_get_ne m2 m3 hp k hk3,
        _vm_time_get_ne now (_vm_type raw) m2 ht k hk2,
        _vm_type_get_ne raw k hk1]
  case isFalse hflag =>
  split at h
  next e => simp at h
  next m5 h5 =>
  split at h
  next e => simp at h
  next m6 h6 =>
  split at h
  next e => simp at h
  next m7 h7 =>
  split at h
  next e => simp at h
  next m8 h8 =>
  split at h
  next e => simp at h
  next m9 h9 =>
  split at h
  next e => simp at h
  next m10 h10 =>
  injection h with hh
  subst hh
  rw [_vm_side_get_ne m10 k hk11,
      _vm_int_field_get_ne "trade_id" m9 m10 h10 k hk10,
      _vm_int_field_get_ne "sequence" m8 m9 h9 k hk9,
      _vm_decimal_field_get_ne "remaining_size" m7 m8 h8 k hk8,
      _vm_decimal_field_get_ne "size" m6 m7 h7 k hk7,
      _vm_decimal_field_get_ne "funds" m5 m6 h6 k hk6,
      _vm_decimal_field_get_ne "price" m4 m5 h5 k hk5,
      _vm_changes_get_ne m3 m4 flag hc k hk4,
      _vm_product_id_get_ne m2 m3 hp k hk3,
      _vm_time_get_ne now (_vm_type raw) m2 ht k hk2,
      _vm_type_get_ne raw k hk1]

/-- When the incoming message carries no usable `time` and is not a
snapshot (so the time stanza pins `None` instead of parsing or
synthesizing a datetime), `_validate_message` is idempotent: a second
application returns its input unchanged. -/
theorem validate_idempotent (now : String) (raw r : Msg)
    (hnd : (raw.map Prod.fst).Nodup)
    (hti : truthy (pyGet raw "time") = false)
    (hty : (dictGet? raw "type").getD (.vStr "unknown") ≠ .vStr "snapshot")
    (h : _validate_message now raw = .ok r) :
    _validate_message now r = .ok r := by
  have hnd1 : (((_vm_type raw).map Prod.fst)).Nodup := _vm_type_nodup raw hnd
  have hty1 : dictGet? (_vm_type raw) "type" =
      some ((dictGet? raw "type").getD (.vStr "unknown")) :=
    dictGet?_dictSet_self raw "type" _
  have hti1 : truthy (pyGet (_vm_type raw) "time") = false := by
    rw [pyGet, _vm_type_get_ne raw "time" (by decide), ← pyGet]
    exact hti
  have hpy1 : pyGet (_vm_type raw) "type" =
      (dictGet? raw "type").getD (.vStr "unknown") := by
    simp [pyGet, hty1]
  unfold _validate_message at h
  split at h
  next e => simp at h
  next m2 ht =>
  have hm2 : m2 = dictSet (_vm_type raw) "time" .vNone := by
    rw [_vm_time_cold now (_vm_type raw) hti1 (by rw [hpy1]; exact hty)] at ht
    injection ht with hh
    exact hh.symm
  have hnd2 : (m2.map Prod.fst).Nodup := _vm_time_nodup now _ m2 ht hnd1
  have ht2 : dictGet? m2 "time" = some .vNone := by
    rw [hm2]
    exact dictGet?_dictSet_self _ "time" _
  have hty2 : dictGet? m2 "type" =
      some ((dictGet? raw "type").getD (.vStr "unknown")) := by
    rw [_vm_time_get_ne now _ m2 ht "type" (by decide)]
    exact hty1
  split at h
  next e => simp at h
  next m3 hp =>
  have hnd3 : (m3.map Prod.fst).Nodup := _vm_product_id_nodup m2 m3 hp hnd2
  have ht3 : dictGet? m3 "time" = some .vNone := by
    rw [_vm_product_id_get_ne m2 m3 hp "time" (by decide)]
    exact ht2
  have hty3 : dictGet? m3 "type" =
      some ((dictGet? raw "type").getD (.vStr "unknown")) := by
    rw [_vm_product_id_get_ne m2 m3 hp "type" (by decide)]
    exact hty2
  split at h
  next e => simp at h
  next m4 flag hc =>
  have hnd4 : (m4.map Prod.fst).Nodup := _vm_changes_nodup m3 m4 flag hc hnd3
  have ht4 : dictGet? m4 "time" = some .vNone := by
    rw [_vm_changes_get_ne m3 m4 flag hc "time" (by decide)]
    exact ht3
  have hty4 : dictGet? m4 "type" =
      some ((dictGet? raw "type").getD (.vStr "unknown")) := by
    rw [_vm_changes_get_ne m3 m4 flag hc "type" (by decide)]
    exact hty3
  split at h
  case isTrue hflag =>
    injection h with hh
    subst hh
    subst hflag
    have hpyr : pyGet m4 "type" =
        (dictGet? raw "type").getD (.vStr "unknown") := by
      simp [pyGet, hty4]
    have s1 : _vm_type m4 = m4 := _vm_type_settled m4 _ hnd4 hty4
    have s2 : _vm_time now m4 = .ok m4 :=
      _vm_time_settled now m4 hnd4 ht4 (by rw [hpyr]; exact hty)
    have s3 : _vm_product_id m4 = .ok m4 :=
      _vm_product_id_settled m2 m3 m4 hp hnd4
        (_vm_changes_get_ne m3 m4 true hc "product_id" (by decide))
    have s4 : _vm_changes m4 = .ok (m4, true) :=
      _vm_changes_settled m3 m4 m4 true hc hnd4 rfl
    unfold _validate_message
    rw [s1]
    simp only [s2, s3, s4, if_true]
  case isFalse hflag =>
  simp only [Bool.not_eq_true] at hflag
  subst hflag
  split at h
  next e => simp at h
  next m5 h5 =>
  split at h
  next e => simp at h
  next m6 h6 =>
  split at h
  next e => simp at h
  next m7 h7 =>
  split at h
  next e => simp at h
  next m8 h8 =>
  split at h
  next e => simp at h
  next m9 h9 =>
  split at h
  next e => simp at h
  next m10 h10 =>
  injection h with hh
  subst hh
  have hnd5 : (m5.map Prod.fst).Nodup := _vm_decimal_field_nodup _ m4 m5 h5 hnd4
  have hnd6 : (m6.map Prod.fst).Nodup := _vm_decimal_field_nodup _ m5 m6 h6 hnd5
  have hnd7 : (m7.map Prod.fst).Nodup := _vm_decimal_field_nodup _ m6 m7 h7 hnd6
  have hnd8 : (m8.map Prod.fst).Nodup := _vm_decimal_field_nodup _ m7 m8 h8 hnd7
  have hnd9 : (m9.map Prod.fst).Nodup := _vm_int_field_nodup _ m8 m9 h9 hnd8
  have hnd10 : (m10.map Prod.fst).Nodup := _vm_int_field_nodup _ m9 m10 h10 hnd9
  have hndr : ((_vm_side m10).map Prod.fst).Nodup := _vm_side_nodup m10 hnd10
  -- agreement of the final output with each stanza's own output
  have back10 : ∀ k, k ≠ "side" → k ≠ "trade_id" →
      dictGet? (_vm_side m10) k = dictGet? m9 k := by
    intro k hk1 hk2
    rw [_vm_side_get_ne m10 k hk1, _vm_int_field_get_ne "trade_id" m9 m10 h10 k hk2]
  have back9 : ∀ k, k ≠ "side" → k ≠ "trade_id" → k ≠ "sequence" →
      dictGet? (_vm_side m10) k = dictGet? m8 k := by
    intro k hk1 hk2 hk3
    rw [back10 k hk1 hk2, _vm_int_field_get_ne "sequence" m8 m9 h9 k hk3]
  have back8 : ∀ k, k ≠ "side" → k ≠ "trade_id" → k ≠ "sequence" →
      k ≠ "remaining_size" → dictGet? (_vm_side m10) k = dictGet? m7 k := by
    intro k hk1 hk2 hk3 hk4
    rw [back9 k hk1 hk2 hk3,
        _vm_decimal_field_get_ne "remaining_size" m7 m8 h8 k hk4]
  have back7 : ∀ k, k ≠ "side" → k ≠ "trade_id" → k ≠ "sequence" →
      k ≠ "remaining_size" → k ≠ "size" →
      dictGet? (_vm_side m10) k = dictGet? m6 k := by
    intro k hk1 hk2 hk3 hk4 hk5
    rw [back8 k hk1 hk2 hk3 hk4, _vm_decimal_field_get_ne "size" m6 m7 h7 k hk5]
  have back6 : ∀ k, k ≠ "side" → k ≠ "trade_id" → k ≠ "sequence" →
      k ≠ "remaining_size" → k ≠ "size" → k ≠ "funds" →
      dictGet? (_vm_side m10) k = dictGet? m5 k := by
    intro k hk1 hk2 hk3 hk4 hk5 hk6
    rw [back7 k hk1 hk2 hk3 hk4 hk5,
        _vm_decimal_field_get_ne "funds" m5 m6 h6 k hk6]
  have back5 : ∀ k, k ≠ "side" → k ≠ "trade_id" → k ≠ "sequence" →
      k ≠ "remaining_size" → k ≠ "size" → k ≠ "funds" → k ≠ "price" →
      dictGet? (_vm_side m10) k = dictGet? m4 k := by
    intro k hk1 hk2 hk3 hk4 hk5 hk6 hk7
    rw [back6 k hk1 hk2 hk3 hk4 hk5 hk6,
        _vm_decimal_field_get_ne "price" m4 m5 h5 k hk7]
  have htR : dictGet? (_vm_side m10) "time" = some .vNone := by
    rw [back5 "time" (by decide) (by decide) (by decide) (by decide) (by decide)
      (by decide) (by decide)]
    exact ht4
  have htyR : dictGet? (_vm_side m10) "type" =
      some ((dictGet? raw "type").getD (.vStr "unknown")) := by
    rw [back5 "type" (by decide) (by decide) (by decide) (by decide) (by decide)
      (by decide) (by decide)]
    exact hty4
  have s1 : _vm_type (_vm_side m10) = _vm_side m10 :=
    _vm_type_settled _ _ hndr htyR
  have hpyr : pyGet (_vm_side m10) "type" =
      (dictGet? raw "type").getD (.vStr "unknown") := by
    simp [pyGet, htyR]
  have s2 : _vm_time now (_vm_side m10) = .ok (_vm_side m10) :=
    _vm_time_settled now _ hndr htR (by rw [hpyr]; exact hty)
  have s3 : _vm_product_id (_vm_side m10) = .ok (_vm_side m10) :=
    _vm_product_id_settled m2 m3 _ hp hndr
      (by rw [back5 "product_id" (by decide) (by decide) (by decide) (by decide)
            (by decide) (by decide) (by decide)]
          exact _vm_changes_get_ne m3 m4 false hc "product_id" (by decide))
  have s4 : _vm_changes (_vm_side m10) = .ok (_vm_side m10, false) :=
    _vm_changes_settled m3 m4 _ false hc hndr
      (back5 "changes" (by decide) (by decide) (by decide) (by decide)
        (by decide) (by decide) (by decide))
  have s5 : _vm_decimal_field "price" (_vm_side m10) = .ok (_vm_side m10) :=
    _vm_decimal_field_settled "price" m4 m5 _ h5 hndr
      (back6 "price" (by decide) (by decide) (by decide) (by decide)
        (by decide) (by decide))
  have s6 : _vm_decimal_field "funds" (_vm_side m10) = .ok (_vm_side m10) :=
    _vm_decimal_field_settled "funds" m5 m6 _ h6 hndr
      (back7 "funds" (by decide) (by decide) (by decide) (by decide)
        (by decide))
  have s7 : _vm_decimal_field "size" (_vm_side m10) = .ok (_vm_side m10) :=
    _vm_decimal_field_settled "size" m6 m7 _ h7 hndr
      (back8 "size" (by decide) (by decide) (by decide) (by decide))
  have s8 : _vm_decimal_field "remaining_size" (_vm_side m10) =
      .ok (_vm_side m10) :=
    _vm_decimal_field_settled "remaining_size" m7 m8 _ h8 hndr
      (back9 "remaining_size" (by decide) (by decide) (by decide))
  have s9 : _vm_int_field "sequence" (_vm_side m10) = .ok (_vm_side m10) :=
    _vm_int_field_settled "sequence" m8 m9 _ h9 hndr
      (back10 "sequence" (by decide) (by decide))
  have s10 : _vm_int_field "trade_id" (_vm_side m10) = .ok (_vm_side m10) :=
    _vm_int_field_settled "trade_id" m9 m10 _ h10 hndr
      (by rw [_vm_side_get_ne m10 "trade_id" (by decide)])
  have sS : _vm_side (_vm_side m10) = _vm_side m10 :=
    _vm_side_settled m10 _ rfl
  unfold _validate_message
  rw [s1]
  simp only [s2, s3, s4, s5, s6, s7, s8, s9, s10, sS, Bool.false_eq_true,
    if_false]

/-- A recognized trade/quote type is not one of the specially handled
types. -/
theorem mem_MESSAGE_TYPES_ne (ty : String) (h : ty ∈ MESSAGE_TYPES) :
    ty ≠ "error" ∧ ty ≠ "subscriptions" ∧ ty ≠ "snapshot" ∧ ty ≠ "l2update" := by
  fin_cases h <;> exact ⟨by decide, by decide, by decide, by decide⟩

set_option maxHeartbeats 2000000 in
/-- Symbolic execution of `_process_message` on a recognized trade/quote
message: the validated message `msg` carries type `ty ∈ MESSAGE_TYPES`,
sequence `s`, and instrument `pid`, whose stored counter is `ctr` and
cache block is `tc`.  The message is accepted iff `ctr = 0 ∨ s = ctr`; on
acceptance the counter becomes `s + 1` and the message lands in the trades
(`match`) or quotes cache; on rejection the out-of-sequence error is
raised — but when `s` is a multiple of 1,000,000 and datasets are on, a
`None` was already appended to the orderbook cache either way. -/
theorem process_tradequote_spec
    (st : HandlerState) (now : String) (book raw msg : Msg)
    (ty pid : String) (s ctr : Int) (tc : TableCaches) (pr : Dec)
    (hval : _validate_message now raw = .ok msg)
    (hty : dictGet? msg "type" = some (.vStr ty))
    (htyM : ty ∈ MESSAGE_TYPES)
    (hseq : dictGet? msg "sequence" = some (.vInt s))
    (hpid : dictGet? msg "product_id" = some (.vStr pid))
    (hctr : dictGet? st.sequences pid = some ctr)
    (hcache : dictGet? st.message_cache pid = some tc)
    (hpr : pyDecimal ((dictGet? msg "price").getD (.vInt 0)) = .ok pr) :
    (ctr = 0 ∨ s = ctr →
      _process_message st now book raw =
        .ok ({ st with
               sequences := dictSet st.sequences pid (s + 1),
               message_cache :=
                 if st.datasets then
                   if s % _ORDERBOOK_SNAPSHOT_ON = 0 then
                     dictSet (dictSet st.message_cache pid (tc.push .orderbook none))
                       pid ((tc.push .orderbook none).push
                         (if ty = "match" then .trades else .quotes) (some msg))
                   else
                     dictSet st.message_cache pid
                       (tc.push (if ty = "match" then .trades else .quotes) (some msg))
                 else st.message_cache }, msg)) ∧
    (¬(ctr = 0 ∨ s = ctr) →
      _process_message st now book raw =
        .error ({ st with
                  message_cache :=
                    if st.datasets ∧ s % _ORDERBOOK_SNAPSHOT_ON = 0 then
                      dictSet st.message_cache pid (tc.push .orderbook none)
                    else st.message_cache },
                .messageHandlerError "is out-of-sequence")) := by
  obtain ⟨hne1, hne2, hne3, hne4⟩ := mem_MESSAGE_TYPES_ne ty htyM
  have htymap : (Value.vStr ty) ∈ MESSAGE_TYPES.map Value.vStr :=
    List.mem_map_of_mem _ htyM
  have htyD : ty = "received" ∨ ty = "open" ∨ ty = "closed" ∨ ty = "done" ∨
      ty = "match" ∨ ty = "change" ∨ ty = "activate" := by
    simpa [MESSAGE_TYPES] using htyM
  obtain ⟨seqs, ds, mc⟩ := st
  simp only at hctr hcache
  constructor
  · intro hacc
    have hguard : ¬(¬ctr = 0 ∧ ¬s = ctr) := by tauto
    unfold _process_message
    rw [hval]
    by_cases hs : s % _ORDERBOOK_SNAPSHOT_ON = 0 <;>
      by_cases hd : ds <;>
        by_cases hm : ty = "match" <;>
          (simp [pyGet, hty, hseq, hpid, hctr, hcache, hpr, hne1, hne2, hne3,
                hne4, htymap, htyM, hs, hd, hm, hguard, appendCache,
                dictGetItem, dictGet?_dictSet_self, MESSAGE_TYPES,
                bind, Except.bind, pure, Except.pure];
           try tauto)
  · intro hacc
    have hguard : ¬ctr = 0 ∧ ¬s = ctr := by tauto
    unfold _process_message
    rw [hval]
    by_cases hs : s % _ORDERBOOK_SNAPSHOT_ON = 0 <;>
      by_cases hd : ds <;>
        (simp [pyGet, hty, hseq, hpid, hctr, hcache, hpr, hne1, hne2, hne3,
              hne4, htymap, htyM, hs, hd, hguard, appendCache,
              dictGetItem, dictGet?_dictSet_self, MESSAGE_TYPES,
              bind, Except.bind, pure, Except.pure];
         try tauto)

/-- The raw `match` frame of the round-trip property (spec §8). -/
def rawMatchC8 : Msg :=
  [("type", .vStr "match"), ("product_id", .vStr "BTC-USD"),
   ("time", .vStr "2018-01-01T00:00:00Z"), ("sequence", .vInt 7),
   ("price", .vStr "101.50"), ("size", .vStr "0.25"), ("side", .vStr "buy")]

/-- Its normalized form: the exact decimals 101.50 (coefficient 10150,
scale 2) and 0.25 (coefficient 25, scale 2). -/
def normMatchC8 : Msg :=
  [("type", .vStr "match"), ("product_id", .vStr "BTC_USD"),
   ("time", .vTime "2018-01-01T00:00:00Z"), ("sequence", .vInt 7),
   ("price", .vDec ⟨10150, 2⟩), ("size", .vDec ⟨25, 2⟩),
   ("side", .vInt 1)]

/-- C1 counterexample: with instrument counter 5 and datasets on, an
out-of-sequence `received` message whose sequence 2,000,000 is a multiple
of 1,000,000 raises the fatal out-of-sequence error with the counter
unchanged — but the orderbook cache has gained a `None` entry (appended by
the snapshot-on-the-millionth path before the sequence check), so "caches
otherwise unchanged" is false as stated. -/
theorem C1_counterexample :
    _process_message
        { sequences := [("BTC_USD", 5)], datasets := true,
          message_cache := [("BTC_USD", ⟨[], [], []⟩)] }
        "NOW" []
        [("type", .vStr "received"), ("product_id", .vStr "BTC-USD"),
         ("sequence", .vInt 2000000)] =
      .error ({ sequences := [("BTC_USD", 5)], datasets := true,
                message_cache := [("BTC_USD", ⟨[], [], [none]⟩)] },
              .messageHandlerError "is out-of-sequence") ∧
    ([("BTC_USD", (⟨[], [], [none]⟩ : TableCaches))] : List (String × TableCaches)) ≠
      [("BTC_USD", ⟨[], [], []⟩)] :=
  ⟨rfl, by decide⟩

/-- C1 amended: for a recognized trade/quote message, the handler accepts
iff the stored counter is 0 or equals the message's sequence; on acceptance
the counter becomes `sequence + 1`; on any other value the fatal
out-of-sequence error is raised with the counter, trades and quotes caches
unchanged — and the orderbook cache also unchanged UNLESS datasets are on
and the sequence is a multiple of 1,000,000, in which case it has already
gained one `None` entry when the error is raised. -/
theorem C1_sequence_guard
    (st : HandlerState) (now : String) (book raw msg : Msg)
    (ty pid : String) (s ctr : Int) (tc : TableCaches) (pr : Dec)
    (hval : _validate_message now raw = .ok msg)
    (hty : dictGet? msg "type" = some (.vStr ty))
    (htyM : ty ∈ MESSAGE_TYPES)
    (hseq : dictGet? msg "sequence" = some (.vInt s))
    (hpid : dictGet? msg "product_id" = some (.vStr pid))
    (hctr : dictGet? st.sequences pid = some ctr)
    (hcache : dictGet? st.message_cache pid = some tc)
    (hpr : pyDecimal ((dictGet? msg "price").getD (.vInt 0)) = .ok pr) :
    (resultErr (_process_message st now book raw) = none ↔ (ctr = 0 ∨ s = ctr)) ∧
    (ctr = 0 ∨ s = ctr →
      dictGet? (resultState (_process_message st now book raw)).sequences pid =
        some (s + 1)) ∧
    (¬(ctr = 0 ∨ s = ctr) →
      resultErr (_process_message st now book raw) =
        some (.messageHandlerError "is out-of-sequence") ∧
      (resultState (_process_message st now book raw)).sequences = st.sequences ∧
      ∃ tc', dictGet? (resultState (_process_message st now book raw)).message_cache pid =
          some tc' ∧
        tc'.trades = tc.trades ∧ tc'.quotes = tc.quotes ∧
        tc'.orderbook =
          (if st.datasets = true ∧ s % _ORDERBOOK_SNAPSHOT_ON = 0 then
            tc.orderbook ++ [none] else tc.orderbook)) := by
  obtain ⟨hA, hR⟩ := process_tradequote_spec st now book raw msg ty pid s ctr
    tc pr hval hty htyM hseq hpid hctr hcache hpr
  by_cases hacc : ctr = 0 ∨ s = ctr
  · rw [hA hacc]
    refine ⟨by simp [resultErr, hacc], fun _ => ?_, fun h => absurd hacc h⟩
    simp [resultState, dictGet?_dictSet_self]
  · rw [hR hacc]
    refine ⟨by simp [resultErr, hacc], fun h => absurd h hacc, fun _ => ?_⟩
    refine ⟨rfl, rfl, ?_⟩
    by_cases hds : st.datasets = true ∧ s % _ORDERBOOK_SNAPSHOT_ON = 0
    · refine ⟨tc.push .orderbook none, ?_, rfl, rfl, ?_⟩
      · show dictGet? (if st.datasets = true ∧ s % _ORDERBOOK_SNAPSHOT_ON = 0 then
            dictSet st.message_cache pid (tc.push .orderbook none)
          else st.message_cache) pid = _
        rw [if_pos hds]
        exact dictGet?_dictSet_self _ _ _
      · rw [if_pos hds]
        rfl
    · refine ⟨tc, ?_, rfl, rfl, ?_⟩
      · show dictGet? (if st.datasets = true ∧ s % _ORDERBOOK_SNAPSHOT_ON = 0 then
            dictSet st.message_cache pid (tc.push .orderbook none)
          else st.message_cache) pid = _
        rw [if_neg hds]
        exact hcache
      · rw [if_neg hds]

/-- Witness for `C1_sequence_guard`: counter 0 (cold start) accepts
sequence 7 and advances the counter to 8. -/
theorem C1_witness :
    resultErr (_process_message (initState ["BTC-USD"] true) "NOW" [] rawMatchC8)
      = none ∧
    dictGet? (resultState
      (_process_message (initState ["BTC-USD"] true) "NOW" [] rawMatchC8)).sequences
      "BTC_USD" = some 8 :=
  ⟨((C1_sequence_guard (initState ["BTC-USD"] true) "NOW" [] rawMatchC8
      normMatchC8 "match" "BTC_USD" 7 0 ⟨[], [], []⟩ ⟨10150, 2⟩
      (by rfl) rfl (by decide) rfl rfl rfl rfl rfl).1).mpr (Or.inl rfl),
   (C1_sequence_guard (initState ["BTC-USD"] true) "NOW" [] rawMatchC8
      normMatchC8 "match" "BTC_USD" 7 0 ⟨[], [], []⟩ ⟨10150, 2⟩
      (by rfl) rfl (by decide) rfl rfl rfl rfl rfl).2.1 (Or.inl rfl)⟩

/-- C9: for a recognized trade/quote message whose sequence is an exact
multiple of 1,000,000 (datasets on), the handler consults the REST
order-book endpoint (the `book` argument) and appends the return value of
`dict.update(type='snapshot')` — Python `None`, not a message — to that
instrument's orderbook cache, whether or not the message then passes the
sequence check. -/
theorem C9_millionth_snapshot_none
    (st : HandlerState) (now : String) (book raw msg : Msg)
    (ty pid : String) (s ctr : Int) (tc : TableCaches) (pr : Dec)
    (hval : _validate_message now raw = .ok msg)
    (hty : dictGet? msg "type" = some (.vStr ty))
    (htyM : ty ∈ MESSAGE_TYPES)
    (hseq : dictGet? msg "sequence" = some (.vInt s))
    (hpid : dictGet? msg "product_id" = some (.vStr pid))
    (hctr : dictGet? st.sequences pid = some ctr)
    (hcache : dictGet? st.message_cache pid = some tc)
    (hpr : pyDecimal ((dictGet? msg "price").getD (.vInt 0)) = .ok pr)
    (hs : s % _ORDERBOOK_SNAPSHOT_ON = 0)
    (hd : st.datasets = true) :
    ∃ tc', dictGet? (resultState (_process_message st now book raw)).message_cache pid =
        some tc' ∧
      tc'.orderbook = tc.orderbook ++ [none] := by
  obtain ⟨hA, hR⟩ := process_tradequote_spec st now book raw msg ty pid s ctr
    tc pr hval hty htyM hseq hpid hctr hcache hpr
  by_cases hacc : ctr = 0 ∨ s = ctr
  · rw [hA hacc]
    refine ⟨(tc.push .orderbook none).push
      (if ty = "match" then .trades else .quotes) (some msg), ?_, ?_⟩
    · simp [resultState, hd, hs, dictGet?_dictSet_self]
    · by_cases hm : ty = "match" <;> simp [hm, TableCaches.push]
  · rw [hR hacc]
    refine ⟨tc.push .orderbook none, ?_, ?_⟩
    · simp [resultState, hd, hs, dictGet?_dictSet_self]
    · simp [TableCaches.push]

/-- Witness for `C9_millionth_snapshot_none`: an accepted cold-start
`received` message with sequence 1,000,000. -/
theorem C9_witness :
    ∃ tc', dictGet? (resultState (_process_message (initState ["BTC-USD"] true)
        "NOW" []
        [("type", .vStr "received"), ("product_id", .vStr "BTC-USD"),
         ("sequence", .vInt 1000000)])).message_cache "BTC_USD" = some tc' ∧
      tc'.orderbook = ([] : List CacheEntry) ++ [none] :=
  C9_millionth_snapshot_none (initState ["BTC-USD"] true) "NOW" []
    [("type", .vStr "received"), ("product_id", .vStr "BTC-USD"),
     ("sequence", .vInt 1000000)]
    [("type", .vStr "received"), ("product_id", .vStr "BTC_USD"),
     ("sequence", .vInt 1000000), ("time", .vNone)]
    "received" "BTC_USD" 1000000 0 ⟨[], [], []⟩ ⟨0, 0⟩
    (by rfl) rfl (by decide) rfl rfl rfl rfl rfl (by decide) rfl

/-- A message that only has a `type` validates to itself plus `time = None`
(provided the type is not `snapshot`, which would synthesize a time). -/
theorem validate_typeonly (now : String) (ty : String) (h2 : ty ≠ "snapshot") :
    _validate_message now [("type", .vStr ty)] =
      .ok [("type", .vStr ty), ("time", .vNone)] := by
  simp [_validate_message, _vm_type, _vm_time, _vm_product_id, _vm_changes,
        _vm_decimal_field, _vm_int_field, _vm_side, dictGet?, dictSet, pyGet,
        truthy, h2, bind, Except.bind, pure, Except.pure]

/-- C10: a received message whose type is none of `subscriptions`,
`snapshot`, `l2update`, or `error` and that lacks a `sequence` key fails
with an uncaught `KeyError` at the sequence-modulo check of
`_process_message` (messages.py 331), before the documented unknown-message
branch (lines 369-372) that would raise `MessageHandlerError`; the handler
state is left unchanged. -/
theorem C10_missing_sequence_keyerror (st : HandlerState) (now : String)
    (book : Msg) (ty : String)
    (h1 : ty ≠ "subscriptions") (h2 : ty ≠ "snapshot")
    (h3 : ty ≠ "l2update") (h4 : ty ≠ "error") :
    _process_message st now book [("type", .vStr ty)] =
      .error (st, .keyError "sequence") := by
  unfold _process_message
  rw [validate_typeonly now ty h2]
  simp [dictGet?, pyGet, dictGetItem, h1, h2, h3, h4, bind, Except.bind,
        pure, Except.pure]

/-- Witness for `C10_missing_sequence_keyerror` at `type = "unknown"` from
the freshly initialized handler. -/
theorem C10_witness :
    ("unknown" ≠ "subscriptions" ∧ "unknown" ≠ "snapshot" ∧
     "unknown" ≠ "l2update" ∧ "unknown" ≠ "error") ∧
    _process_message (initState ["BTC-USD"] true) "NOW" [] [("type", .vStr "unknown")] =
      .error (initState ["BTC-USD"] true, .keyError "sequence") :=
  ⟨⟨by decide, by decide, by decide, by decide⟩,
   C10_missing_sequence_keyerror (initState ["BTC-USD"] true) "NOW" []
     "unknown" (by decide) (by decide) (by decide) (by decide)⟩

/-- C8: a `match` event with price `"101.50"` and size `"0.25"` (decimal
strings) normalizes to the exact decimal values 101.50 and 0.25 — the
rational values 203/2 and 1/4 exactly, with no binary floating point
anywhere in the model — and the normalized event is appended to the trades
cache of its instrument. -/
theorem C8_match_decimal_roundtrip :
    _process_message (initState ["BTC-USD"] true) "NOW" [] rawMatchC8 =
      .ok ({ sequences := [("BTC_USD", 8)], datasets := true,
             message_cache := [("BTC_USD",
               { trades := [some normMatchC8], quotes := [], orderbook := [] })] },
           normMatchC8) ∧
    dictGet? normMatchC8 "price" = some (.vDec ⟨10150, 2⟩) ∧
    Dec.toRat ⟨10150, 2⟩ = (203 : Rat)/2 ∧
    dictGet? normMatchC8 "size" = some (.vDec ⟨25, 2⟩) ∧
    Dec.toRat ⟨25, 2⟩ = (1 : Rat)/4 := by
  refine ⟨by rfl, by decide, ?_, by decide, ?_⟩ <;> norm_num [Dec.toRat]

/-- C5 (code bug): requesting the unsupported `ticker` channel the way the
subscribe frame carries channels — as a list — does NOT raise: the check
`self._subscribe["channels"] in _UNSUPPORTED_CHANNELS` (websocket.py 82)
compares the whole channels list against each string, which can never
succeed, so construction completes where a fail-fast configuration error is
required.  Only a bare-string channels value (never the documented frame
shape) would trigger the intended `NotImplementedError`. -/
theorem C5_channel_check_never_fires :
    WebSocket_init ["BTC-USD"] (some
      { type := "subscribe", product_ids := ["BTC-USD"]
      , channels := .vList (.cons (.vStr "ticker") .nil) }) =
      .ok { type := "subscribe", product_ids := ["BTC-USD"]
          , channels := .vList (.cons (.vStr "ticker") .nil) } ∧
    WebSocket_init ["BTC-USD"] (some
      { type := "subscribe", product_ids := ["BTC-USD"]
      , channels := .vStr "ticker" }) = .error .notImplementedError :=
  ⟨rfl, rfl⟩

/-- C4 counterexample: a failed acquisition (HTTP 500 from the token
endpoint) still mutates the stored expiry — from 50 to `100 + 3600 = 3700`
— because `_make_jwt_for_audience` assigns it before the POST; only the
stored token is left unchanged. -/
theorem C4_counterexample :
    _acquire_token ⟨"uri", "signer", "scopes"⟩
        ⟨50, some [("access_token", .vStr "old")]⟩ 100 500 [] =
      .error (⟨3700, some [("access_token", .vStr "old")]⟩,
              .asyncAuthGoogleCloudError) ∧
    (3700 : Int) ≠ 50 :=
  ⟨rfl, by decide⟩

/-- C4 amended: token acquisition updates the stored expiry to `now + 3600`
on EVERY attempt — it is assigned while the JWT assertion is built, before
the exchange — not only on success; on success the response is stored as
the token, and on failure an auth error is raised with the stored token
unchanged. -/
theorem C4_expiry_set_on_every_attempt (cfg : AuthConfig) (st : AuthState)
    (now : Int) (status : Nat) (resp : Msg) :
    (status = 200 →
      _acquire_token cfg st now status resp =
        .ok { token_expiration := now + _TOKEN_EXPIRATION, token := some resp }) ∧
    (status ≠ 200 →
      _acquire_token cfg st now status resp =
        .error ({ token_expiration := now + _TOKEN_EXPIRATION, token := st.token },
                .asyncAuthGoogleCloudError)) := by
  constructor
  · intro h
    simp [_acquire_token, _make_jwt_for_audience, h]
  · intro h
    simp [_acquire_token, _make_jwt_for_audience, h]

/-- Witness for `C4_expiry_set_on_every_attempt`: a successful acquisition
at `now = 100` from expiry 50. -/
theorem C4_witness :
    _acquire_token ⟨"uri", "signer", "scopes"⟩ ⟨50, none⟩ 100 200
        [("access_token", .vStr "tok")] =
      .ok { token_expiration := 3700, token := some [("access_token", .vStr "tok")] } :=
  (C4_expiry_set_on_every_attempt ⟨"uri", "signer", "scopes"⟩ ⟨50, none⟩ 100 200
    [("access_token", .vStr "tok")]).1 rfl

/-- C3 counterexample: with stored expiry 100 and `now = 100` — i.e.
`now >= expiry`, where the claim demands exactly one token-exchange call —
the write goes out with ZERO exchange calls, carrying a token whose stored
expiry (100) is at-or-before `now`: the refresh guard in interact.py 212 is
the strict `utcnow() > self._token_expiration`. -/
theorem C3_counterexample :
    (100 : Int) ≥ 100 ∧
    insert_rows_json ⟨"uri", "signer", "scopes"⟩
        ⟨100, some [("access_token", .vStr "tok")]⟩ 100
        [] none (fun _ => "uuid") none none none 200 [] 200 =
      .ok (⟨100, some [("access_token", .vStr "tok")]⟩,
           { exchange_calls := 0, expiry_at_request := 100, bearer := .vStr "tok",
             request_rows := [], skipInvalidRows := none,
             ignoreUnknownValues := none, templateSuffix := none }) ∧
    (0 : Nat) ≠ 1 ∧ (100 : Int) ≤ 100 :=
  ⟨by decide, rfl, by decide, by decide⟩

/-- Without caller-supplied row ids, the row-building loop cannot fail and
yields one generated id per row. -/
theorem build_rows_info_none (st : AuthState) (uuids : Nat → String)
    (l : List (Nat × Msg)) :
    build_rows_info st none uuids l = .ok (l.map (fun p => (uuids p.1, p.2))) := by
  induction l with
  | nil => rfl
  | cons a l ih => simp [build_rows_info, ih, bind, Except.bind, pure, Except.pure]

/-- C3 amended: the token is exchanged exactly when `now` is STRICTLY past
the stored expiry (`>` in interact.py 212): then exactly one exchange call
runs before the insert request, which carries the fresh expiry
`now + 3600`; when `now <= expiry` — including `now = expiry` exactly — no
exchange call is made and the request carries the stored expiry.  In every
successful call the expiry at request time is `>= now` (not `> now`). -/
theorem C3_refresh_strictly_after_expiry (cfg : AuthConfig) (st : AuthState)
    (now : Int) (json_rows : List Msg) (uuids : Nat → String)
    (tok xjson : Msg) (b1 b2 : Value)
    (htok : st.token = some tok)
    (hb1 : dictGet? tok "access_token" = some b1)
    (hb2 : dictGet? xjson "access_token" = some b2) :
    (now > st.token_expiration →
      insert_rows_json cfg st now json_rows none uuids none none none 200 xjson 200 =
        .ok ({ token_expiration := now + _TOKEN_EXPIRATION, token := some xjson },
             { exchange_calls := 1, expiry_at_request := now + _TOKEN_EXPIRATION,
               bearer := b2,
               request_rows := ((List.range json_rows.length).zip json_rows).map
                 (fun p => (uuids p.1, p.2))
             , skipInvalidRows := none, ignoreUnknownValues := none
             , templateSuffix := none })) ∧
    (¬ now > st.token_expiration →
      insert_rows_json cfg st now json_rows none uuids none none none 200 xjson 200 =
        .ok (st,
             { exchange_calls := 0, expiry_at_request := st.token_expiration,
               bearer := b1,
               request_rows := ((List.range json_rows.length).zip json_rows).map
                 (fun p => (uuids p.1, p.2))
             , skipInvalidRows := none, ignoreUnknownValues := none
             , templateSuffix := none })) ∧
    (∀ st' tr,
      insert_rows_json cfg st now json_rows none uuids none none none 200 xjson 200 =
        .ok (st', tr) → now ≤ tr.expiry_at_request) := by
  have hrows := build_rows_info_none st uuids ((List.range json_rows.length).zip json_rows)
  refine ⟨?_, ?_, ?_⟩
  · intro h
    simp [insert_rows_json, hrows, _acquire_token, _make_jwt_for_audience, h,
          htok, hb2]
  · intro h
    simp [insert_rows_json, hrows, h, htok, hb1]
  · intro st' tr hok
    by_cases h : now > st.token_expiration
    · simp [insert_rows_json, hrows, _acquire_token, _make_jwt_for_audience, h,
            htok, hb2] at hok
      rcases hok with ⟨-, htr⟩
      rw [← htr]
      simp only [_TOKEN_EXPIRATION]
      omega
    · simp [insert_rows_json, hrows, h, htok, hb1] at hok
      rcases hok with ⟨-, htr⟩
      rw [← htr]
      simp only
      omega

/-- Witness for `C3_refresh_strictly_after_expiry`: expired token at
`now = 200 > 100`, one exchange call, fresh expiry 3800. -/
theorem C3_witness :
    insert_rows_json ⟨"uri", "signer", "scopes"⟩
        ⟨100, some [("access_token", .vStr "old")]⟩ 200
        [] none (fun _ => "uuid") none none none 200
        [("access_token", .vStr "new")] 200 =
      .ok ({ token_expiration := 3800, token := some [("access_token", .vStr "new")] },
           { exchange_calls := 1, expiry_at_request := 3800, bearer := .vStr "new",
             request_rows := [], skipInvalidRows := none,
             ignoreUnknownValues := none, templateSuffix := none }) :=
  (C3_refresh_strictly_after_expiry ⟨"uri", "signer", "scopes"⟩
    ⟨100, some [("access_token", .vStr "old")]⟩ 200 [] (fun _ => "uuid")
    [("access_token", .vStr "old")] [("access_token", .vStr "new")]
    (.vStr "old") (.vStr "new") rfl rfl rfl).1 (by decide)

/-- C7 counterexample: normalization is NOT idempotent on every message.
A message carrying a textual `time` normalizes successfully (the string is
parsed to a datetime), but re-normalizing the result feeds the parsed
datetime back into the parser, which raises `TypeError` — the second
application errors instead of returning its input. -/
theorem C7_counterexample :
    _validate_message "NOW" [("type", .vStr "received"), ("time", .vStr "T1")]
      = .ok [("type", .vStr "received"), ("time", .vTime "T1")] ∧
    _validate_message "NOW" [("type", .vStr "received"), ("time", .vTime "T1")]
      = .error .typeError :=
  ⟨rfl, rfl⟩

/-- C7 (corrected): normalization is idempotent for messages carrying no
truthy `time` value and not of `snapshot` type (so the time stanza stores
`None`, which is not re-parsed): re-applying `_validate_message` to its own
output returns that output unchanged. Unconditionally, fields the
normalizer does not recognize are never mutated. Idempotence fails for
messages with a parsed `time` (see the counterexample). -/
theorem C7_normalization_idempotent (now : String) (raw r : Msg)
    (hnd : (raw.map Prod.fst).Nodup)
    (hti : truthy (pyGet raw "time") = false)
    (hty : (dictGet? raw "type").getD (.vStr "unknown") ≠ .vStr "snapshot")
    (h : _validate_message now raw = .ok r) :
    _validate_message now r = .ok r ∧
    ∀ now' raw' r', _validate_message now' raw' = .ok r' →
      ∀ k, k ∉ recognizedKeys → dictGet? r' k = dictGet? raw' k :=
  ⟨validate_idempotent now raw r hnd hti hty h,
   fun now' raw' r' h' k hk =>
     validate_preserves_unrecognized now' raw' r' h' k hk⟩

/-- Witness for `C7_normalization_idempotent`: a `received` message with a
textual `side`, an unrecognized field `foo`, and no `time` normalizes once;
the second application fixes the output, and `foo` is untouched. -/
theorem C7_witness :
    _validate_message "NOW"
      [("type", .vStr "received"), ("side", .vInt 1), ("foo", .vInt 7),
       ("time", .vNone)]
      = .ok [("type", .vStr "received"), ("side", .vInt 1), ("foo", .vInt 7),
             ("time", .vNone)] ∧
    dictGet? [("type", Value.vStr "received"), ("side", Value.vInt 1),
              ("foo", Value.vInt 7), ("time", Value.vNone)] "foo"
      = dictGet? [("type", Value.vStr "received"),
                  ("side", Value.vStr "buy"), ("foo", Value.vInt 7)] "foo" := by
  have h := C7_normalization_idempotent "NOW"
    [("type", .vStr "received"), ("side", .vStr "buy"), ("foo", .vInt 7)]
    [("type", .vStr "received"), ("side", .vInt 1), ("foo", .vInt 7),
     ("time", .vNone)]
    (by decide) (by decide) (by decide) rfl
  refine ⟨h.1, h.2 "NOW"
    [("type", .vStr "received"), ("side", .vStr "buy"), ("foo", .vInt 7)]
    [("type", .vStr "received"), ("side", .vInt 1), ("foo", .vInt 7),
     ("time", .vNone)] rfl "foo" (by decide)⟩

end Coinbase
